import Mathlib

/-!
# Pathie route-point ordering subsystem: shallow embedding

A shallow embedding of the core of the Pathie travel-route backend
(`pathie/core/services.py`, `pathie/core/serializers.py`, `pathie/core/models/`):
the data model for routes, places and soft-deletable ordered route points,
point ingestion with place lookup/dedup, the nearest-neighbor route optimizer
with its two-phase position write, soft delete, and route status updates.

Database rows become records in explicit list-valued tables (`DB`); Django
queryset operations become list filters/sorts; float coordinates are embedded
as rationals cast to real numbers for the haversine distance; fallible
operations return `Except`.
-/

namespace Pathie

/-- `Route.status` values (`models/route.py`). -/
inductive RouteStatus
  | temporary
  | saved
deriving DecidableEq

/-- `Route.route_type` values (`models/route.py`). -/
inductive RouteType
  | manual
  | ai_generated
deriving DecidableEq

/-- `RoutePoint.source` values (`models/route_point.py`). -/
inductive PointSource
  | manual
  | ai_generated
deriving DecidableEq

/-- A row of the `places` table (`models/place.py`).  `osm_id` and
`wikipedia_id` are nullable and unique when present; coordinates are embedded
as rationals (exact decimal literals). The free-form `data` JSON blob and the
auto timestamps are plumbing not touched by any modelled operation and are
omitted. -/
structure Place where
  id : Nat
  name : String
  osm_id : Option Int
  wikipedia_id : Option String
  address : Option String
  city : Option String
  country : Option String
  lat : ℚ
  lon : ℚ
deriving DecidableEq

/-- A row of the `routes` table (`models/route.py`). `saved_at` stores an
abstract timestamp. -/
structure Route where
  id : Nat
  user_id : Nat
  name : String
  status : RouteStatus
  route_type : RouteType
  saved_at : Option Nat
deriving DecidableEq

/-- A row of the `route_points` table (`models/route_point.py`). -/
structure RoutePoint where
  id : Nat
  route_id : Nat
  place_id : Nat
  source : PointSource
  position : Int
  optimized_position : Option Int
  is_removed : Bool
deriving DecidableEq

/-- A row of the `place_descriptions` table (`models/place_description.py`),
restricted to the fields the claims mention. -/
structure PlaceDescription where
  id : Nat
  route_point_id : Nat
  content : String
deriving DecidableEq

/-- The persistent state: the four tables as lists of rows. -/
structure DB where
  places : List Place
  routes : List Route
  route_points : List RoutePoint
  descriptions : List PlaceDescription
deriving DecidableEq

/-- Errors surfaced by the modelled operations: DRF `ValidationError`s from
the serializer, `BusinessLogicException`s from the service layer, and
database `IntegrityError`s from unique constraints. -/
inductive ApiError
  | validation (msg : String)
  | business (msg : String)
  | integrity (msg : String)
deriving DecidableEq

/-- The filter `RoutePoint.objects.filter(route=route, is_removed=False)`. -/
def isActivePoint (rid : Nat) (p : RoutePoint) : Bool :=
  p.route_id == rid && !p.is_removed

/-- `RoutePoint.objects.filter(route=route, is_removed=False)` as a list. -/
def activeFor (db : DB) (rid : Nat) : List RoutePoint :=
  db.route_points.filter (isActivePoint rid)

/-- The queryset `...filter(route=route, is_removed=False).order_by('position')`
used by `RouteService.optimize_route` (services.py:609-613): active points of
the route in ascending position order. -/
def active_points (db : DB) (route : Route) : List RoutePoint :=
  List.insertionSort (fun a b : RoutePoint => a.position ≤ b.position)
    (activeFor db route.id)

/-- `Place.objects.get(pk=...)`: look a place up by primary key. -/
def findPlace (db : DB) (pid : Nat) : Option Place :=
  db.places.find? (fun pl => pl.id == pid)

/-- `select_related('place')`: each active point paired with its place row
(dangling foreign keys, impossible in a well-formed database, are dropped). -/
def fetchPoints (db : DB) (route : Route) : List (RoutePoint × Place) :=
  (active_points db route).filterMap
    (fun p => (findPlace db p.place_id).map (fun pl => (p, pl)))

/-- Apply a `position` update keyed by primary key to a single row. -/
def applyUpd (upds : List (Nat × Int)) (p : RoutePoint) : RoutePoint :=
  match upds.find? (fun u => u.1 == p.id) with
  | some u => { p with position := u.2 }
  | none => p

/-- `RoutePoint.objects.bulk_update(points, ['position'])`: persist new
`position` values (keyed by primary key) for the listed points. -/
def bulk_update_positions (db : DB) (upds : List (Nat × Int)) : DB :=
  { db with route_points := db.route_points.map (applyUpd upds) }

/-- `RouteService.soft_delete_point` (services.py:667-713): set `is_removed`
on the row with the point's primary key; `save(update_fields=['is_removed'])`
writes only that column. -/
def soft_delete_point (db : DB) (pt : RoutePoint) : DB :=
  { db with
    route_points := db.route_points.map (fun p =>
      if p.id == pt.id then { p with is_removed := true } else p) }

/-- The `place` input of `RoutePointCreateSerializer`
(`PlaceInputSerializer`, serializers.py:344-359): absent optional fields are
`none`. -/
structure PlaceInput where
  name : String
  lat : ℚ
  lon : ℚ
  osm_id : Option Int := none
  wikipedia_id : Option String := none
  address : Option String := none
deriving DecidableEq

/-- Field-level then object-level validation of
`RoutePointCreateSerializer` (serializers.py:344-419): name required,
coordinates range-checked, then route type and the 10-active-points cap. -/
def run_validation (db : DB) (route : Route) (input : PlaceInput) :
    Except ApiError Unit :=
  if input.name = "" then .error (.validation "name may not be blank")
  else if 255 < input.name.length then .error (.validation "name too long")
  else if input.lat < -90 ∨ 90 < input.lat then
    .error (.validation "lat out of range")
  else if input.lon < -180 ∨ 180 < input.lon then
    .error (.validation "lon out of range")
  else if route.route_type ≠ RouteType.manual then
    .error (.validation "Cannot add points to AI generated route.")
  else if 10 ≤ (activeFor db route.id).length then
    .error (.validation "Max points limit reached.")
  else .ok ()

/-- The `Place` row built by `Place.objects.create(**place_data)`
(serializers.py:455) for a fresh primary key `npid`. -/
def new_place_of_input (input : PlaceInput) (npid : Nat) : Place :=
  { id := npid, name := input.name, osm_id := input.osm_id,
    wikipedia_id := input.wikipedia_id, address := input.address,
    city := none, country := none, lat := input.lat, lon := input.lon }

/-- `Place.objects.create(**place_data)` including the unique constraints on
`osm_id` and `wikipedia_id` (models/place.py: `unique=True` on both): creating
a duplicate non-null identifier fails with an integrity error. -/
def place_create (db : DB) (input : PlaceInput) (npid : Nat) :
    Except ApiError (Place × DB) :=
  if input.osm_id.isSome && db.places.any (fun pl => pl.osm_id == input.osm_id)
  then .error (.integrity "duplicate osm_id")
  else if input.wikipedia_id.isSome &&
      db.places.any (fun pl => pl.wikipedia_id == input.wikipedia_id)
  then .error (.integrity "duplicate wikipedia_id")
  else
    let pl := new_place_of_input input npid
    .ok (pl, { db with places := db.places ++ [pl] })

/-- The place lookup of `RoutePointCreateSerializer.create`
(serializers.py:440-451): `if osm_id:` tries the osm lookup only when
`osm_id` is truthy (present and nonzero); `if not place and wikipedia_id:`
tries the wikipedia lookup only when nothing was found and `wikipedia_id` is
truthy (present and non-empty). -/
def osm_lookup (db : DB) (osm_id : Option Int) : Option Place :=
  match osm_id with
  | some o => if o ≠ 0 then db.places.find? (fun pl => pl.osm_id == some o) else none
  | none => none

/-- `if not place and wikipedia_id: place = Place.objects.filter(wikipedia_id=...).first()`:
runs only on a truthy (present, non-empty) `wikipedia_id`. -/
def wiki_lookup (db : DB) (wikipedia_id : Option String) : Option Place :=
  match wikipedia_id with
  | some w => if w ≠ "" then db.places.find? (fun pl => pl.wikipedia_id == some w) else none
  | none => none

def lookup_place (db : DB) (input : PlaceInput) : Option Place :=
  match osm_lookup db input.osm_id with
  | some pl => some pl
  | none => wiki_lookup db input.wikipedia_id

/-- `next_position`: serializers.py:462-469 — one more than the maximum
`position` among the route's active points, or `0` when there are none
(`order_by('-position').first()` yields the maximum). -/
def next_position (db : DB) (route : Route) : Int :=
  (((activeFor db route.id).map (fun p => p.position)).maximum.unbot' (-1)) + 1

/-- `RoutePointCreateSerializer.create` (serializers.py:421-479): resolve or
create the place, compute the next position, append the new manual point.
`npid`/`nrid` are the fresh primary keys handed out by the database. -/
def create_point (db : DB) (route : Route) (input : PlaceInput)
    (npid nrid : Nat) : Except ApiError (RoutePoint × DB) :=
  let finishWith : Place → DB → RoutePoint × DB := fun pl db1 =>
    let pt : RoutePoint :=
      { id := nrid, route_id := route.id, place_id := pl.id,
        source := PointSource.manual, position := next_position db1 route,
        optimized_position := none, is_removed := false }
    (pt, { db1 with route_points := db1.route_points ++ [pt] })
  match lookup_place db input with
  | some pl => .ok (finishWith pl db)
  | none =>
    match place_create db input npid with
    | .error e => .error e
    | .ok (pl, db1) => .ok (finishWith pl db1)

/-- The whole ingestion call (`serializer.is_valid()` then `.save()`):
validation runs first; creation only happens when validation passed. -/
def add_point (db : DB) (route : Route) (input : PlaceInput)
    (npid nrid : Nat) : Except ApiError (RoutePoint × DB) :=
  match run_validation db route input with
  | .error e => .error e
  | .ok _ => create_point db route input npid nrid

/-- Transactional view of ingestion: on any error the transaction rolls back
and the persisted state is unchanged. -/
def add_point_run (db : DB) (route : Route) (input : PlaceInput)
    (npid nrid : Nat) : DB :=
  match add_point db route input npid nrid with
  | .ok (_, db1) => db1
  | .error _ => db

/-- The optional `name`/`status` payload accepted by
`RouteService.update_route`. -/
structure RouteUpdate where
  name : Option String := none
  status : Option RouteStatus := none
deriving DecidableEq

/-- `RouteService.update_route` (services.py:416-486): apply the partial
update; when the status transitions from a non-`saved` status to `saved`,
stamp `saved_at` with the current time `now`. Returns the updated route and
the database with its row rewritten. -/
def update_route (db : DB) (route : Route) (upd : RouteUpdate) (now : Nat) :
    Route × DB :=
  let status_changing_to_saved : Bool :=
    match upd.status with
    | some s =>
        decide (s ≠ route.status) &&
          (decide (s = RouteStatus.saved) && decide (route.status ≠ RouteStatus.saved))
    | none => false
  let route1 : Route :=
    { route with
      name := upd.name.getD route.name,
      status := upd.status.getD route.status }
  let route2 : Route :=
    if status_changing_to_saved then { route1 with saved_at := some now } else route1
  (route2,
   { db with routes := db.routes.map (fun r => if r.id == route.id then route2 else r) })

/-- Python's `math.atan2(y, x)`: the angle of the point `(x, y)`, equal to
`arctan (y / x)` in the right half-plane. -/
noncomputable def atan2 (y x : ℝ) : ℝ :=
  if 0 < x then Real.arctan (y / x)
  else if x < 0 then
    (if 0 ≤ y then Real.arctan (y / x) + Real.pi else Real.arctan (y / x) - Real.pi)
  else if 0 < y then Real.pi / 2
  else if y < 0 then -(Real.pi / 2)
  else 0

/-- `RouteService._calculate_distance` (services.py:488-520): haversine
great-circle distance in kilometers on a sphere of radius 6371 km. -/
noncomputable def _calculate_distance (lat1 lon1 lat2 lon2 : ℝ) : ℝ :=
  let R : ℝ := 6371.0
  let lat1_rad := lat1 * (Real.pi / 180)
  let lon1_rad := lon1 * (Real.pi / 180)
  let lat2_rad := lat2 * (Real.pi / 180)
  let lon2_rad := lon2 * (Real.pi / 180)
  let dlat := lat2_rad - lat1_rad
  let dlon := lon2_rad - lon1_rad
  let a := Real.sin (dlat / 2) ^ 2 +
    Real.cos lat1_rad * Real.cos lat2_rad * Real.sin (dlon / 2) ^ 2
  let c := 2 * atan2 (Real.sqrt a) (Real.sqrt (1 - a))
  R * c

/-- Distance between the places of two route points (the lambda in
`_nearest_neighbor_tsp`, services.py:550-555). -/
noncomputable def pointDist (pl1 pl2 : Place) : ℝ :=
  _calculate_distance (pl1.lat : ℝ) (pl1.lon : ℝ) (pl2.lat : ℝ) (pl2.lon : ℝ)

/-- Python's `min(remaining, key=k)`: fold keeping the current minimum,
replacing it only on a strictly smaller key, so the first element with the
minimal key wins ties. -/
noncomputable def minByFirst {α : Type} (k : α → ℝ) (a : α) : List α → α
  | [] => a
  | b :: l => if k b < k a then minByFirst k b l else minByFirst k a l

/-- `min(remaining, key=...)` returns an element of the sequence. -/
theorem minByFirst_mem {α : Type} (k : α → ℝ) (l : List α) (a : α) :
    minByFirst k a l ∈ a :: l := by
  induction l generalizing a with
  | nil => simp [minByFirst]
  | cons b l ih =>
    rw [minByFirst]
    by_cases h : k b < k a
    · rw [if_pos h]
      rcases List.mem_cons.mp (ih b) with h1 | h2
      · simp [h1]
      · simp [List.mem_cons_of_mem, h2]
    · rw [if_neg h]
      rcases List.mem_cons.mp (ih a) with h1 | h2
      · simp [h1]
      · simp [List.mem_cons_of_mem, h2]

/-- The `while remaining:` loop of `RouteService._nearest_neighbor_tsp`
(services.py:543-559): pick the nearest remaining point to the current one
(`min` with first-minimum tie-break), remove it from `remaining`
(`list.remove` removes the first element equal by primary key), append, and
continue from it. -/
noncomputable def nnAux (cur : Place) :
    (remaining : List (RoutePoint × Place)) → List (RoutePoint × Place)
  | [] => []
  | a :: l =>
    let nearest := minByFirst (fun q => pointDist cur q.2) a l
    nearest :: nnAux nearest.2 ((a :: l).eraseP (fun q => q.1.id == nearest.1.id))
termination_by remaining => remaining.length
decreasing_by
  have hm : minByFirst (fun q => pointDist cur q.2) a l ∈ a :: l :=
    minByFirst_mem _ l a
  have hl := List.length_eraseP_of_mem
    (p := fun q => q.1.id == (minByFirst (fun q => pointDist cur q.2) a l).1.id)
    hm (by simp)
  rw [hl]
  simp only [List.length_cons]
  omega

/-- `RouteService._nearest_neighbor_tsp` (services.py:522-561): lists with at
most one point are returned as-is; otherwise the first point is the fixed
start and the rest follow in greedy nearest-neighbor order. -/
noncomputable def _nearest_neighbor_tsp (points : List (RoutePoint × Place)) :
    List (RoutePoint × Place) :=
  if points.length ≤ 1 then points
  else
    match points with
    | [] => []
    | p0 :: rest => p0 :: nnAux p0.2 rest

/-- `RouteService.optimize_route` (services.py:563-665): validate the route
type and point count, run the nearest-neighbor heuristic (any strategy value
falls back to it), then commit positions `0..n-1` through the two-phase
negative-placeholder write. Returns the reordered points and the new state. -/
noncomputable def optimize_route (db : DB) (route : Route)
    (config : Option String) : Except ApiError (List RoutePoint × DB) :=
  let strategy := config.getD "nearest_neighbor"
  if route.route_type ≠ RouteType.manual then
    .error (.business "Tylko trasy typu manual moga byc optymalizowane.")
  else
    let points := active_points db route
    if points.length < 2 then
      .error (.business "Trasa musi miec co najmniej 2 punkty.")
    else
      let pts := fetchPoints db route
      let optimized_points :=
        if strategy == "nearest_neighbor" || strategy == "tsp_approx" then
          _nearest_neighbor_tsp pts
        else
          _nearest_neighbor_tsp pts
      let db1 := bulk_update_positions db
        (optimized_points.enum.map (fun iq => (iq.2.1.id, -((iq.1 : Int) + 1))))
      let db2 := bulk_update_positions db1
        (optimized_points.enum.map (fun iq => (iq.2.1.id, (iq.1 : Int))))
      .ok (optimized_points.enum.map
            (fun iq => { iq.2.1 with position := (iq.1 : Int) }), db2)

/-- Transactional view of `optimize_route` (`@transaction.atomic`): on any
error the whole call rolls back and the persisted state is unchanged. -/
noncomputable def optimize_route_run (db : DB) (route : Route)
    (config : Option String) : DB :=
  match optimize_route db route config with
  | .ok (_, db2) => db2
  | .error _ => db

/-- The list the nearest-neighbor heuristic returns inside a successful
`optimize_route` call. -/
noncomputable def nnList (db : DB) (route : Route) : List (RoutePoint × Place) :=
  _nearest_neighbor_tsp (fetchPoints db route)

/-- The point list returned by a successful `optimize_route` call: the
reordered points with positions `0..n-1`. -/
noncomputable def nnOut (db : DB) (route : Route) : List RoutePoint :=
  (nnList db route).enum.map (fun iq => { iq.2.1 with position := (iq.1 : Int) })

/-- The phase-1 (negative placeholder) position updates of the two-phase
write. -/
noncomputable def updsTemp (db : DB) (route : Route) : List (Nat × Int) :=
  (nnList db route).enum.map (fun iq => (iq.2.1.id, -((iq.1 : Int) + 1)))

/-- The phase-2 (final `0..n-1`) position updates of the two-phase write. -/
noncomputable def updsFinal (db : DB) (route : Route) : List (Nat × Int) :=
  (nnList db route).enum.map (fun iq => (iq.2.1.id, (iq.1 : Int)))

/-- The database state after a successful `optimize_route` call. -/
noncomputable def afterOptimize (db : DB) (route : Route) : DB :=
  bulk_update_positions db (updsFinal db route)

/-- Declarative "first argmin": `x` occurs in `l`, every element before it
has a strictly larger key and every element after it has a key at least as
large — i.e. `x` is the closest element, ties broken by the first minimal
element in the sequence's current order. -/
def IsFirstMin {α : Type} (k : α → ℝ) (l : List α) (x : α) : Prop :=
  ∃ l1 l2, l = l1 ++ x :: l2 ∧ (∀ y ∈ l1, k x < k y) ∧ (∀ y ∈ l2, k x ≤ k y)

/-- Primary-key based equality on fetched point/place pairs is plain
structural equality; fix one `BEq` instance so that `List.erase` agrees with
Mathlib's `DecidableEq`-based lemmas. -/
instance instBEqPointPlace : BEq (RoutePoint × Place) :=
  instBEqOfDecidableEq

instance instLawfulBEqPointPlace : LawfulBEq (RoutePoint × Place) where
  eq_of_beq h := of_decide_eq_true h
  rfl := decide_eq_true rfl

/-- Declarative nearest-neighbor order: starting from the place `cur`, the
output repeatedly takes the first-minimum-distance element of the remaining
sequence and removes it, until nothing remains. -/
inductive NNChain : Place → List (RoutePoint × Place) → List (RoutePoint × Place) → Prop
  | nil (cur : Place) : NNChain cur [] []
  | cons (cur : Place) (rem : List (RoutePoint × Place)) (x : RoutePoint × Place)
      (rest : List (RoutePoint × Place)) :
      IsFirstMin (fun q => pointDist cur q.2) rem x →
      NNChain x.2 (rem.erase x) rest →
      NNChain cur rem (x :: rest)

/-- Well-formedness of a database state, mirroring the schema constraints:
unique primary keys, valid foreign keys from points to places, the partial
unique index on `(route, position)` over active rows
(migration `route_points_uniq_position_active`), and the unique constraints
on `Place.osm_id` / `Place.wikipedia_id`. -/
def wfB (db : DB) : Bool :=
  (db.route_points.map (fun p => p.id)).Nodup &&
  ((db.places.map (fun pl => pl.id)).Nodup &&
  ((db.routes.map (fun r => r.id)).Nodup &&
  (db.route_points.all (fun p => (findPlace db p.place_id).isSome) &&
  (db.routes.all (fun r => ((activeFor db r.id).map (fun p => p.position)).Nodup) &&
  ((db.places.filterMap (fun pl => pl.osm_id)).Nodup &&
  (db.places.filterMap (fun pl => pl.wikipedia_id)).Nodup)))))

/-! ## Properties of the nearest-neighbor selection -/

/-- `min(remaining, key=k)` picks the first element with the minimal key:
everything before it in the sequence is strictly farther, everything after it
is at least as far. -/
theorem minByFirst_isFirstMin {α : Type} (k : α → ℝ) :
    ∀ (l : List α) (a : α), IsFirstMin k (a :: l) (minByFirst k a l) := by
  intro l
  induction l with
  | nil =>
    intro a
    exact ⟨[], [], by simp [minByFirst], by simp, by simp⟩
  | cons b l ih =>
    intro a
    rw [minByFirst]
    by_cases h : k b < k a
    · rw [if_pos h]
      obtain ⟨l1, l2, hdec, hlt, hle⟩ := ih b
      have hmb : k (minByFirst k b l) ≤ k b := by
        cases l1 with
        | nil =>
          simp only [List.nil_append, List.cons.injEq] at hdec
          rw [← hdec.1]
        | cons c l1 =>
          simp only [List.cons_append, List.cons.injEq] at hdec
          exact le_of_lt (hlt b (by simp [hdec.1]))
      refine ⟨a :: l1, l2, ?_, ?_, hle⟩
      · simp only [List.cons_append]
        rw [← hdec]
      · intro y hy
        rcases List.mem_cons.mp hy with heq | hy'
        · rw [heq]; exact lt_of_le_of_lt hmb h
        · exact hlt y hy'
    · rw [if_neg h]
      obtain ⟨l1, l2, hdec, hlt, hle⟩ := ih a
      cases l1 with
      | nil =>
        simp only [List.nil_append, List.cons.injEq] at hdec
        refine ⟨[], b :: l2, ?_, by simp, ?_⟩
        · simp only [List.nil_append]
          rw [← hdec.1, ← hdec.2]
        · intro y hy
          rcases List.mem_cons.mp hy with heq | hy'
          · rw [heq, ← hdec.1]; exact not_lt.mp h
          · exact hle y hy'
      | cons c l1 =>
        simp only [List.cons_append, List.cons.injEq] at hdec
        have hma : k (minByFirst k a l) < k a :=
          hlt a (by rw [← hdec.1]; exact List.mem_cons_self a l1)
        refine ⟨a :: b :: l1, l2, ?_, ?_, hle⟩
        · simp only [List.cons_append]
          rw [← hdec.2]
        · intro y hy
          rcases List.mem_cons.mp hy with heq | hy'
          · rw [heq]; exact hma
          · rcases List.mem_cons.mp hy' with heq2 | hy''
            · rw [heq2]; exact lt_of_lt_of_le hma (not_lt.mp h)
            · exact hlt y (List.mem_cons_of_mem c hy'')

/-- When primary keys are distinct, erasing by key equality is erasing the
element itself (the `list.remove` of services.py:559, where Django model
equality compares primary keys). -/
theorem eraseP_id_eq_erase :
    ∀ {l : List (RoutePoint × Place)} {x : RoutePoint × Place},
      (l.map (fun q => q.1.id)).Nodup → x ∈ l →
      l.eraseP (fun q => q.1.id == x.1.id) = l.erase x := by
  intro l
  induction l with
  | nil => intro x _ hx; cases hx
  | cons a l ih =>
    intro x hnd hx
    rcases List.mem_cons.mp hx with rfl | hx'
    · rw [List.eraseP_cons_of_pos (by simp), List.erase_cons_head x l]
    · have hanotin : a.1.id ∉ l.map (fun q => q.1.id) :=
        (List.nodup_cons.mp hnd).1
      have hne : (a.1.id == x.1.id) = false := by
        simp only [beq_eq_false_iff_ne, ne_eq]
        intro he
        exact hanotin (he ▸ List.mem_map_of_mem (fun q => q.1.id) hx')
      have hne' : a ≠ x := by
        intro he
        rw [he] at hne
        simp at hne
      rw [List.eraseP_cons_of_neg (by simp [hne]), List.erase_cons_tail (by simp [hne']),
        ih (List.nodup_cons.mp hnd).2 hx']

/-- The nearest-neighbor loop returns the remaining points in declarative
nearest-neighbor order and is a permutation of them. -/
theorem nnAux_spec :
    ∀ (n : Nat) (rem : List (RoutePoint × Place)) (cur : Place),
      rem.length = n → (rem.map (fun q => q.1.id)).Nodup →
      NNChain cur rem (nnAux cur rem) ∧ (nnAux cur rem).Perm rem := by
  intro n
  induction n using Nat.strong_induction_on with
  | _ n ih =>
    intro rem cur hlen hnd
    match rem with
    | [] =>
      rw [nnAux]
      exact ⟨NNChain.nil cur, List.Perm.refl []⟩
    | a :: l =>
      rw [nnAux]
      have hm : minByFirst (fun q => pointDist cur q.2) a l ∈ a :: l :=
        minByFirst_mem _ l a
      have herase : (a :: l).eraseP
            (fun q => q.1.id == (minByFirst (fun q => pointDist cur q.2) a l).1.id) =
          (a :: l).erase (minByFirst (fun q => pointDist cur q.2) a l) :=
        eraseP_id_eq_erase hnd hm
      have hsub : ((a :: l).erase (minByFirst (fun q => pointDist cur q.2) a l)).Sublist (a :: l) :=
        List.erase_sublist _ _
      have hnd' : (((a :: l).erase (minByFirst (fun q => pointDist cur q.2) a l)).map
          (fun q => q.1.id)).Nodup := ((hsub.map _).nodup hnd)
      have hpc := List.perm_cons_erase hm
      have hlen' : ((a :: l).erase (minByFirst (fun q => pointDist cur q.2) a l)).length < n := by
        have := hpc.length_eq
        simp only [List.length_cons] at this hlen
        omega
      obtain ⟨hchain, hperm⟩ := ih _ hlen' _ (minByFirst (fun q => pointDist cur q.2) a l).2
        rfl hnd'
      constructor
      · simp only [herase]
        exact NNChain.cons cur (a :: l) _ _ (minByFirst_isFirstMin _ l a)
          (by simpa [herase] using hchain)
      · simp only [herase]
        exact ((hperm.cons _).trans hpc.symm)

/-- On a nonempty input, `_nearest_neighbor_tsp` keeps the first point fixed
and runs the greedy loop on the rest (for a singleton both branches agree). -/
theorem nearest_neighbor_tsp_cons (p0 : RoutePoint × Place)
    (rest : List (RoutePoint × Place)) :
    _nearest_neighbor_tsp (p0 :: rest) = p0 :: nnAux p0.2 rest := by
  rw [_nearest_neighbor_tsp]
  by_cases h : (p0 :: rest).length ≤ 1
  · rw [if_pos h]
    match rest with
    | [] => rw [nnAux]
    | b :: l => simp at h
  · rw [if_neg h]

/-! ## Structure-update simplification lemmas -/

@[simp] theorem rp_upd_id (p : RoutePoint) (x : Int) :
    ({ p with position := x } : RoutePoint).id = p.id := rfl

@[simp] theorem rp_upd_route_id (p : RoutePoint) (x : Int) :
    ({ p with position := x } : RoutePoint).route_id = p.route_id := rfl

@[simp] theorem rp_upd_place_id (p : RoutePoint) (x : Int) :
    ({ p with position := x } : RoutePoint).place_id = p.place_id := rfl

@[simp] theorem rp_upd_source (p : RoutePoint) (x : Int) :
    ({ p with position := x } : RoutePoint).source = p.source := rfl

@[simp] theorem rp_upd_opt (p : RoutePoint) (x : Int) :
    ({ p with position := x } : RoutePoint).optimized_position = p.optimized_position := rfl

@[simp] theorem rp_upd_removed (p : RoutePoint) (x : Int) :
    ({ p with position := x } : RoutePoint).is_removed = p.is_removed := rfl

@[simp] theorem rp_upd_position (p : RoutePoint) (x : Int) :
    ({ p with position := x } : RoutePoint).position = x := rfl

@[simp] theorem rp_upd_upd (p : RoutePoint) (x y : Int) :
    ({ ({ p with position := x } : RoutePoint) with position := y } : RoutePoint)
      = { p with position := y } := rfl

@[simp] theorem rp_rm_id (p : RoutePoint) :
    ({ p with is_removed := true } : RoutePoint).id = p.id := rfl

@[simp] theorem rp_rm_route_id (p : RoutePoint) :
    ({ p with is_removed := true } : RoutePoint).route_id = p.route_id := rfl

@[simp] theorem rp_rm_place_id (p : RoutePoint) :
    ({ p with is_removed := true } : RoutePoint).place_id = p.place_id := rfl

@[simp] theorem rp_rm_position (p : RoutePoint) :
    ({ p with is_removed := true } : RoutePoint).position = p.position := rfl

@[simp] theorem rp_rm_removed (p : RoutePoint) :
    ({ p with is_removed := true } : RoutePoint).is_removed = true := rfl

/-! ## Bulk-update plumbing -/

/-- A bulk position update changes no field of a row except `position`. -/
theorem applyUpd_fields (upds : List (Nat × Int)) (p : RoutePoint) :
    (applyUpd upds p).id = p.id ∧ (applyUpd upds p).route_id = p.route_id ∧
    (applyUpd upds p).place_id = p.place_id ∧ (applyUpd upds p).source = p.source ∧
    (applyUpd upds p).optimized_position = p.optimized_position ∧
    (applyUpd upds p).is_removed = p.is_removed := by
  unfold applyUpd
  cases upds.find? (fun u => u.1 == p.id) <;> simp

/-- A primary-key lookup fails exactly when the key is absent. -/
theorem find?_key_none_iff (u : List (Nat × Int)) (i : Nat) :
    u.find? (fun x => x.1 == i) = none ↔ i ∉ u.map Prod.fst := by
  rw [List.find?_eq_none]
  simp only [beq_iff_eq, List.mem_map]
  constructor
  · rintro h ⟨x, hx, hxi⟩
    exact h x hx hxi
  · intro h x hx hxi
    exact h ⟨x, hx, hxi⟩

/-- A bulk update leaves rows whose primary key is not listed unchanged. -/
theorem applyUpd_not_mem (upds : List (Nat × Int)) (p : RoutePoint)
    (h : p.id ∉ upds.map Prod.fst) : applyUpd upds p = p := by
  unfold applyUpd
  rw [(find?_key_none_iff upds p.id).mpr h]

/-- Composing two bulk position updates over the same key set: the second
one wins on every row. -/
theorem applyUpd_applyUpd (u1 u2 : List (Nat × Int)) (p : RoutePoint)
    (hkeys : u1.map Prod.fst = u2.map Prod.fst) :
    applyUpd u2 (applyUpd u1 p) = applyUpd u2 p := by
  cases h1 : u1.find? (fun v => v.1 == p.id) with
  | some v =>
    have e1 : applyUpd u1 p = { p with position := v.2 } := by
      unfold applyUpd
      rw [h1]
    rw [e1]
    unfold applyUpd
    simp only [rp_upd_id]
    cases h2 : u2.find? (fun u => u.1 == p.id) with
    | some u => simp
    | none =>
      exfalso
      have hv : v.1 = p.id := by simpa using List.find?_some h1
      have hmem : p.id ∈ u2.map Prod.fst := by
        rw [← hkeys]
        exact List.mem_map.mpr ⟨v, List.mem_of_find?_eq_some h1, hv⟩
      exact (find?_key_none_iff u2 p.id).mp h2 hmem
  | none =>
    have h2 : u2.find? (fun v => v.1 == p.id) = none := by
      rw [find?_key_none_iff, ← hkeys, ← find?_key_none_iff]
      exact h1
    have e1 : applyUpd u1 p = p := by
      unfold applyUpd
      rw [h1]
    have e2 : applyUpd u2 p = p := by
      unfold applyUpd
      rw [h2]
    rw [e1, e2]

/-- Two successive bulk position updates over the same key set collapse to
the second one: the phase-1 negative placeholders of the two-phase write are
invisible in the final state. -/
theorem bulk_update_twice (db : DB) (u1 u2 : List (Nat × Int))
    (hkeys : u1.map Prod.fst = u2.map Prod.fst) :
    bulk_update_positions (bulk_update_positions db u1) u2 =
      bulk_update_positions db u2 := by
  unfold bulk_update_positions
  refine congrArg (fun x => { db with route_points := x }) ?_
  rw [List.map_map]
  refine List.map_congr_left ?_
  intro p _
  rw [Function.comp_apply, applyUpd_applyUpd u1 u2 p hkeys]

/-- With valid foreign keys, `select_related('place')` pairs every active
point with its place: projecting the pairs back gives the point list. -/
theorem fetch_map_fst (db : DB) (route : Route)
    (hfk : ∀ p ∈ active_points db route, (findPlace db p.place_id).isSome) :
    (fetchPoints db route).map Prod.fst = active_points db route := by
  unfold fetchPoints
  have key : ∀ l : List RoutePoint, (∀ p ∈ l, (findPlace db p.place_id).isSome) →
      (l.filterMap (fun p => (findPlace db p.place_id).map (fun pl => (p, pl)))).map
        Prod.fst = l := by
    intro l hl
    induction l with
    | nil => simp
    | cons a l ih =>
      obtain ⟨pl, hpl⟩ := Option.isSome_iff_exists.mp (hl a (List.mem_cons_self a l))
      rw [List.filterMap_cons]
      simp only [hpl, Option.map_some']
      simp [ih (fun p hp => hl p (List.mem_cons_of_mem a hp))]
  exact key _ hfk

/-! ## Unpacking well-formedness -/

/-- The components of `wfB` as propositions. -/
theorem wf_spec (db : DB) (h : wfB db = true) :
    (db.route_points.map (fun p => p.id)).Nodup ∧
    (db.places.map (fun pl => pl.id)).Nodup ∧
    (db.routes.map (fun r => r.id)).Nodup ∧
    (∀ p ∈ db.route_points, (findPlace db p.place_id).isSome) ∧
    (∀ r ∈ db.routes, ((activeFor db r.id).map (fun p => p.position)).Nodup) ∧
    (db.places.filterMap (fun pl => pl.osm_id)).Nodup ∧
    (db.places.filterMap (fun pl => pl.wikipedia_id)).Nodup := by
  unfold wfB at h
  simp only [Bool.and_eq_true, decide_eq_true_eq, List.all_eq_true] at h
  obtain ⟨h1, h2, h3, h4, h5, h6, h7⟩ := h
  exact ⟨h1, h2, h3, fun p hp => h4 p hp, fun r hr => h5 r hr, h6, h7⟩

/-- Active points are rows of the table. -/
theorem active_points_subset (db : DB) (route : Route) :
    ∀ p ∈ active_points db route, p ∈ db.route_points := by
  intro p hp
  have h1 : p ∈ activeFor db route.id :=
    (List.perm_insertionSort _ _).mem_iff.mp hp
  exact List.mem_of_mem_filter h1

/-- Under `wfB`, the ordered active point list has pairwise distinct primary
keys. -/
theorem active_ids_nodup (db : DB) (route : Route) (h : wfB db = true) :
    ((active_points db route).map (fun p => p.id)).Nodup := by
  have hnd : ((activeFor db route.id).map (fun p => p.id)).Nodup :=
    (((List.filter_sublist _).map _).nodup (wf_spec db h).1)
  exact ((List.perm_insertionSort _ _).map _).nodup_iff.mpr hnd

/-- Under `wfB`, the fetched point/place pairs have pairwise distinct point
primary keys. -/
theorem fetch_ids_nodup (db : DB) (route : Route) (h : wfB db = true) :
    ((fetchPoints db route).map (fun q => q.1.id)).Nodup := by
  have e : (fetchPoints db route).map (fun q => q.1.id) =
      ((fetchPoints db route).map Prod.fst).map (fun p => p.id) := by
    rw [List.map_map]
    rfl
  rw [e, fetch_map_fst db route
    (fun p hp => (wf_spec db h).2.2.2.1 p (active_points_subset db route p hp))]
  exact active_ids_nodup db route h

/-- Under `wfB` the nearest-neighbor output is a permutation of the fetched
pairs, and it is in declarative nearest-neighbor order past its head. -/
theorem nnList_perm_fetch (db : DB) (route : Route) (h : wfB db = true) :
    (nnList db route).Perm (fetchPoints db route) := by
  unfold nnList
  cases hf : fetchPoints db route with
  | nil =>
    rw [_nearest_neighbor_tsp]
    simp
  | cons p0 rest =>
    rw [nearest_neighbor_tsp_cons]
    have hnd : (rest.map (fun q => q.1.id)).Nodup := by
      have := fetch_ids_nodup db route h
      rw [hf] at this
      exact (List.nodup_cons.mp (by simpa using this)).2
    exact (nnAux_spec rest.length rest p0.2 rfl hnd).2.cons p0

/-- Under `wfB` the nearest-neighbor output has pairwise distinct point
primary keys. -/
theorem nnList_ids_nodup (db : DB) (route : Route) (h : wfB db = true) :
    ((nnList db route).map (fun q => q.1.id)).Nodup :=
  (((nnList_perm_fetch db route h).map _).nodup_iff).mpr (fetch_ids_nodup db route h)

/-! ## The final bulk write assigns each reordered point its index -/

/-- Applying the index-keyed position updates of a list with distinct keys to
the list itself gives every element its own index as position. -/
theorem map_applyUpd_enumFrom :
    ∀ (l : List (RoutePoint × Place)) (k : Nat), (l.map (fun q => q.1.id)).Nodup →
      (l.map Prod.fst).map
          (applyUpd ((List.enumFrom k l).map (fun iq => (iq.2.1.id, (iq.1 : Int)))))
        = (List.enumFrom k l).map (fun iq => { iq.2.1 with position := (iq.1 : Int) }) := by
  intro l
  induction l with
  | nil => intro k _; simp
  | cons a l ih =>
    intro k hnd
    rw [List.enumFrom_cons]
    simp only [List.map_cons]
    have hhead : applyUpd ((a.1.id, (k : Int)) ::
        (List.enumFrom (k + 1) l).map (fun iq => (iq.2.1.id, (iq.1 : Int)))) a.1 =
        { a.1 with position := (k : Int) } := by
      unfold applyUpd
      rw [List.find?_cons_of_pos _ (by simp)]
    have hanotin : a.1.id ∉ l.map (fun q => q.1.id) := (List.nodup_cons.mp hnd).1
    have htail : (l.map Prod.fst).map
        (applyUpd ((a.1.id, (k : Int)) ::
          (List.enumFrom (k + 1) l).map (fun iq => (iq.2.1.id, (iq.1 : Int)))))
        = (l.map Prod.fst).map
          (applyUpd ((List.enumFrom (k + 1) l).map (fun iq => (iq.2.1.id, (iq.1 : Int))))) := by
      refine List.map_congr_left ?_
      intro p hp
      obtain ⟨q, hq, hqp⟩ := List.mem_map.mp hp
      have hne : a.1.id ≠ p.id := by
        intro he
        exact hanotin (by
          rw [he, ← hqp]
          exact List.mem_map_of_mem _ hq)
      unfold applyUpd
      rw [List.find?_cons_of_neg _ (by simp [hne])]
    rw [hhead, htail, ih (k + 1) (List.nodup_cons.mp hnd).2]

/-- The rows of the post-optimize state are exactly the pre-state rows with
the final position updates applied. -/
theorem afterOptimize_route_points (db : DB) (route : Route) :
    (afterOptimize db route).route_points =
      db.route_points.map (applyUpd (updsFinal db route)) := rfl

/-- `optimize_route` never touches the `places` table. -/
theorem afterOptimize_places (db : DB) (route : Route) :
    (afterOptimize db route).places = db.places := rfl

/-- `optimize_route` never touches the `routes` table. -/
theorem afterOptimize_routes (db : DB) (route : Route) :
    (afterOptimize db route).routes = db.routes := rfl

/-- `optimize_route` never touches the `descriptions` table. -/
theorem afterOptimize_descriptions (db : DB) (route : Route) :
    (afterOptimize db route).descriptions = db.descriptions := rfl

/-- Characterization of a successful optimize: on a manual route with at
least two active points, `optimize_route` returns the nearest-neighbor
reordering with positions `0..n-1` and the state with those positions
committed (the phase-1 placeholders collapse away). -/
theorem optimize_route_ok (db : DB) (route : Route) (config : Option String)
    (hty : route.route_type = RouteType.manual)
    (hlen : 2 ≤ (active_points db route).length) :
    optimize_route db route config = .ok (nnOut db route, afterOptimize db route) := by
  have hkeys : (updsTemp db route).map Prod.fst = (updsFinal db route).map Prod.fst := by
    unfold updsTemp updsFinal
    rw [List.map_map, List.map_map]
    rfl
  simp only [optimize_route]
  rw [if_neg (by simp [hty]), if_neg (by omega)]
  simp only [ite_self]
  rw [show (bulk_update_positions db
      ((_nearest_neighbor_tsp (fetchPoints db route)).enum.map
        (fun iq => (iq.2.1.id, -((iq.1 : Int) + 1))))) =
      bulk_update_positions db (updsTemp db route) from rfl]
  rw [show ((_nearest_neighbor_tsp (fetchPoints db route)).enum.map
      (fun iq => (iq.2.1.id, (iq.1 : Int)))) = updsFinal db route from rfl]
  rw [bulk_update_twice db _ _ hkeys]
  rfl

/-- The active rows of any route after an optimize are the active rows
before it with the final position updates applied: the updates touch neither
`route_id` nor `is_removed`. -/
theorem activeFor_afterOptimize (db : DB) (route : Route) (rid : Nat) :
    activeFor (afterOptimize db route) rid =
      (activeFor db rid).map (applyUpd (updsFinal db route)) := by
  unfold activeFor
  rw [afterOptimize_route_points, List.filter_map]
  refine congrArg _ (List.filter_congr ?_)
  intro p _
  obtain ⟨h1, h2, h3, h4, h5, h6⟩ := applyUpd_fields (updsFinal db route) p
  simp [isActivePoint, h2, h6]

/-- Rewriting the final write through the nearest-neighbor list: the updated
active rows of the optimized route are exactly the returned points. -/
theorem map_fst_applyUpd_eq_nnOut (db : DB) (route : Route) (h : wfB db = true) :
    ((nnList db route).map Prod.fst).map (applyUpd (updsFinal db route)) =
      nnOut db route := by
  unfold updsFinal nnOut
  simp only [List.enum_eq_enumFrom]
  exact map_applyUpd_enumFrom _ 0 (nnList_ids_nodup db route h)

/-- After an optimize, the active rows of the optimized route are a
permutation of the returned points. -/
theorem active_after_perm_nnOut (db : DB) (route : Route) (h : wfB db = true) :
    (activeFor (afterOptimize db route) route.id).Perm (nnOut db route) := by
  rw [activeFor_afterOptimize]
  have hfk : ∀ p ∈ active_points db route, (findPlace db p.place_id).isSome :=
    fun p hp => (wf_spec db h).2.2.2.1 p (active_points_subset db route p hp)
  have h1 : (activeFor db route.id).Perm ((nnList db route).map Prod.fst) := by
    refine (List.perm_insertionSort
      (fun a b : RoutePoint => a.position ≤ b.position) (activeFor db route.id)).symm.trans ?_
    rw [show List.insertionSort (fun a b : RoutePoint => a.position ≤ b.position)
      (activeFor db route.id) = active_points db route from rfl]
    rw [← fetch_map_fst db route hfk]
    exact ((nnList_perm_fetch db route h).map Prod.fst).symm
  have h2 := h1.map (applyUpd (updsFinal db route))
  rwa [map_fst_applyUpd_eq_nnOut db route h] at h2

/-- The returned points carry positions `0, 1, ..., n-1` in order. -/
theorem nnOut_positions (db : DB) (route : Route) :
    (nnOut db route).map (fun p => p.position) =
      (List.range (nnList db route).length).map Int.ofNat := by
  unfold nnOut
  rw [List.map_map]
  rw [show ((fun p : RoutePoint => p.position) ∘
      fun iq : Nat × (RoutePoint × Place) =>
        ({ iq.2.1 with position := (iq.1 : Int) } : RoutePoint)) =
      Int.ofNat ∘ Prod.fst from rfl]
  conv_lhs => rw [← List.map_map]
  rw [List.enum_map_fst]

/-- The optimizer returns as many points as the route has active points. -/
theorem nnList_length (db : DB) (route : Route) (h : wfB db = true) :
    (nnList db route).length = (active_points db route).length := by
  rw [(nnList_perm_fetch db route h).length_eq]
  have hfk : ∀ p ∈ active_points db route, (findPlace db p.place_id).isSome :=
    fun p hp => (wf_spec db h).2.2.2.1 p (active_points_subset db route p hp)
  rw [← fetch_map_fst db route hfk, List.length_map]

/-! ## Soft delete and route update facts -/

/-- Re-marking an already-removed row changes nothing. -/
theorem rp_set_removed_self (p : RoutePoint) (h : p.is_removed = true) :
    ({ p with is_removed := true } : RoutePoint) = p := by
  cases p
  simp_all

/-- Writing back an unchanged point table is a no-op on the state. -/
theorem db_update_points_self (db : DB) (X : List RoutePoint)
    (h : X = db.route_points) : { db with route_points := X } = db := by
  cases db
  simp_all

/-- C8: soft delete is idempotent, touches only the `is_removed` flag of the
targeted row, touches no other table (descriptions survive), and is a no-op
on an already-removed point. -/
theorem c8_soft_delete_idempotent (db : DB) (pt : RoutePoint) :
    soft_delete_point (soft_delete_point db pt) pt = soft_delete_point db pt ∧
    (soft_delete_point db pt).places = db.places ∧
    (soft_delete_point db pt).routes = db.routes ∧
    (soft_delete_point db pt).descriptions = db.descriptions ∧
    List.Forall₂ (fun p p2 : RoutePoint =>
        p2.id = p.id ∧ p2.route_id = p.route_id ∧ p2.place_id = p.place_id ∧
        p2.source = p.source ∧ p2.position = p.position ∧
        p2.optimized_position = p.optimized_position ∧
        (p.id = pt.id → p2.is_removed = true) ∧
        (p.id ≠ pt.id → p2 = p))
      db.route_points (soft_delete_point db pt).route_points ∧
    ((∀ p ∈ db.route_points, p.id = pt.id → p.is_removed = true) →
      soft_delete_point db pt = db) := by
  refine ⟨?_, rfl, rfl, rfl, ?_, ?_⟩
  · unfold soft_delete_point
    refine congrArg (fun x => { db with route_points := x }) ?_
    rw [List.map_map]
    refine List.map_congr_left ?_
    intro p _
    by_cases h : (p.id == pt.id) = true
    · simp only [Function.comp_apply, if_pos h, rp_rm_id, if_pos h]
    · simp only [Function.comp_apply, if_neg h, if_neg h]
  · unfold soft_delete_point
    simp only
    rw [List.forall₂_map_right_iff]
    rw [List.forall₂_same]
    intro p _
    by_cases h : (p.id == pt.id) = true
    · have hpe : p.id = pt.id := by simpa using h
      simp [hpe]
    · have hne : p.id ≠ pt.id := by simpa using h
      simp [hne]
  · intro hall
    unfold soft_delete_point
    refine db_update_points_self db _ ?_
    refine (List.map_congr_left ?_).trans (List.map_id _)
    intro p hp
    by_cases h : (p.id == pt.id) = true
    · rw [if_pos h]
      exact rp_set_removed_self p (hall p hp (by simpa using h))
    · rw [if_neg h]
      rfl

/-- C9 (amended): `update_route` stamps `saved_at` with the current time on
every status transition from a non-saved status into `saved`, and leaves it
untouched on any other update (including `saved` → `temporary`). -/
theorem c9_saved_at_on_transition_to_saved (db : DB) (route : Route)
    (upd : RouteUpdate) (now : Nat) :
    (update_route db route upd now).1.saved_at =
      (if upd.status = some RouteStatus.saved ∧ route.status ≠ RouteStatus.saved
       then some now else route.saved_at) := by
  unfold update_route
  cases hs : upd.status with
  | none => simp
  | some s =>
    by_cases h1 : s = RouteStatus.saved
    · by_cases h2 : route.status = RouteStatus.saved
      · simp [h1, h2]
      · simp [h1, h2, Ne.symm h2]
    · simp [h1]

/-! ## Membership facts about active points and the optimizer's key set -/

/-- Active points are not removed. -/
theorem active_points_not_removed (db : DB) (route : Route) :
    ∀ p ∈ active_points db route, p.is_removed = false := by
  intro p hp
  have h1 : p ∈ activeFor db route.id :=
    (List.perm_insertionSort _ _).mem_iff.mp hp
  have h2 := List.of_mem_filter h1
  simp only [isActivePoint, Bool.and_eq_true, beq_iff_eq, Bool.not_eq_true'] at h2
  exact h2.2

/-- Active points belong to the route. -/
theorem active_points_route_id (db : DB) (route : Route) :
    ∀ p ∈ active_points db route, p.route_id = route.id := by
  intro p hp
  have h1 : p ∈ activeFor db route.id :=
    (List.perm_insertionSort _ _).mem_iff.mp hp
  have h2 := List.of_mem_filter h1
  simp only [isActivePoint, Bool.and_eq_true, beq_iff_eq, Bool.not_eq_true'] at h2
  exact h2.1

/-- The keys of the final position write are the primary keys of the
reordered points. -/
theorem updsFinal_keys (db : DB) (route : Route) :
    (updsFinal db route).map Prod.fst = (nnList db route).map (fun q => q.1.id) := by
  unfold updsFinal
  rw [List.map_map]
  rw [show (Prod.fst ∘ fun iq : Nat × (RoutePoint × Place) => (iq.2.1.id, (iq.1 : Int)))
    = (fun q : RoutePoint × Place => q.1.id) ∘ Prod.snd from rfl]
  rw [← List.map_map, List.enum_map_snd]

/-- Every primary key the optimizer writes belongs to an active point of the
optimized route. -/
theorem nn_key_active (db : DB) (route : Route) (h : wfB db = true) (i : Nat)
    (hin : i ∈ (nnList db route).map (fun q => q.1.id)) :
    ∃ q ∈ active_points db route, q.id = i := by
  have h1 : i ∈ (fetchPoints db route).map (fun q => q.1.id) :=
    ((nnList_perm_fetch db route h).map _).mem_iff.mp hin
  have e : (fetchPoints db route).map (fun q => q.1.id) =
      (active_points db route).map (fun p => p.id) := by
    rw [show (fun q : RoutePoint × Place => q.1.id) = (fun p : RoutePoint => p.id) ∘ Prod.fst
      from rfl]
    rw [← List.map_map, fetch_map_fst db route
      (fun p hp => (wf_spec db h).2.2.2.1 p (active_points_subset db route p hp))]
  rw [e] at h1
  obtain ⟨q, hq, hqi⟩ := List.mem_map.mp h1
  exact ⟨q, hq, hqi⟩

/-- The final position write skips every row that is removed or belongs to a
different route. -/
theorem applyUpd_skips (db : DB) (route : Route) (h : wfB db = true)
    (p : RoutePoint) (hp : p ∈ db.route_points)
    (hcond : p.is_removed = true ∨ p.route_id ≠ route.id) :
    applyUpd (updsFinal db route) p = p := by
  apply applyUpd_not_mem
  rw [updsFinal_keys]
  intro hin
  obtain ⟨q, hq, hqi⟩ := nn_key_active db route h p.id hin
  have hqp : q = p :=
    List.inj_on_of_nodup_map (wf_spec db h).1
      (active_points_subset db route q hq) hp hqi
  rcases hcond with hrem | hrid
  · have := active_points_not_removed db route q hq
    rw [hqp, hrem] at this
    cases this
  · exact hrid (hqp ▸ active_points_route_id db route q hq)

/-- `optimize_route` fails exactly on a non-manual route or on fewer than two
active points; the error is always a `BusinessLogicException`. -/
theorem optimize_route_error_iff (db : DB) (route : Route) (config : Option String) :
    (∃ msg, optimize_route db route config = .error (ApiError.business msg)) ↔
      (route.route_type ≠ RouteType.manual ∨ (active_points db route).length < 2) := by
  constructor
  · rintro ⟨msg, he⟩
    by_contra hc
    push_neg at hc
    obtain ⟨hty, hlen⟩ := hc
    rw [optimize_route_ok db route config hty (by omega)] at he
    cases he
  · intro hc
    by_cases hty : route.route_type = RouteType.manual
    · have hlen : (active_points db route).length < 2 := by
        rcases hc with h1 | h2
        · exact absurd hty h1
        · exact h2
      refine ⟨"Trasa musi miec co najmniej 2 punkty.", ?_⟩
      simp only [optimize_route]
      rw [if_neg (by simp [hty]), if_pos hlen]
    · refine ⟨"Tylko trasy typu manual moga byc optymalizowane.", ?_⟩
      simp only [optimize_route]
      rw [if_pos hty]

/-! ## Shape of a successful ingestion -/

/-- What `Place.objects.create` does when it succeeds. -/
theorem place_create_ok (db : DB) (input : PlaceInput) (npid : Nat)
    (pl : Place) (db1 : DB) (h : place_create db input npid = .ok (pl, db1)) :
    pl = new_place_of_input input npid ∧
    db1 = { db with places := db.places ++ [pl] } := by
  unfold place_create at h
  split at h
  · cases h
  · split at h
    · cases h
    · simp only [Except.ok.injEq, Prod.mk.injEq] at h
      obtain ⟨h1, h2⟩ := h
      exact ⟨h1.symm, by rw [← h2, ← h1]⟩

/-- What a successful `add_point` call does to the state: it appends exactly
one manual, non-removed `RoutePoint` at `next_position`, leaves points,
routes and descriptions otherwise untouched, and either reuses an existing
place (places unchanged) or appends exactly the new place. -/
theorem add_point_ok_shape (db : DB) (route : Route) (input : PlaceInput)
    (npid nrid : Nat) (pt : RoutePoint) (db2 : DB)
    (h : add_point db route input npid nrid = .ok (pt, db2)) :
    db2.route_points = db.route_points ++ [pt] ∧
    db2.routes = db.routes ∧
    db2.descriptions = db.descriptions ∧
    pt.route_id = route.id ∧
    pt.position = next_position db route ∧
    pt.is_removed = false ∧
    pt.id = nrid ∧
    pt.source = PointSource.manual ∧
    pt.optimized_position = none ∧
    ((∃ pl, lookup_place db input = some pl ∧ pt.place_id = pl.id ∧
        db2.places = db.places) ∨
      (lookup_place db input = none ∧ pt.place_id = npid ∧
        db2.places = db.places ++ [new_place_of_input input npid])) := by
  unfold add_point at h
  cases hv : run_validation db route input with
  | error e => rw [hv] at h; cases h
  | ok u =>
    rw [hv] at h
    unfold create_point at h
    cases hl : lookup_place db input with
    | some pl =>
      rw [hl] at h
      simp only [Except.ok.injEq, Prod.mk.injEq] at h
      obtain ⟨h1, h2⟩ := h
      rw [← h1, ← h2]
      refine ⟨rfl, rfl, rfl, rfl, rfl, rfl, rfl, rfl, rfl, Or.inl ⟨pl, rfl, rfl, rfl⟩⟩
    | none =>
      rw [hl] at h
      cases hc : place_create db input npid with
      | error e => rw [hc] at h; cases h
      | ok pr =>
        obtain ⟨pl, db1⟩ := pr
        obtain ⟨hpl, hdb1⟩ := place_create_ok db input npid pl db1 hc
        rw [hc] at h
        simp only [Except.ok.injEq, Prod.mk.injEq] at h
        obtain ⟨h1, h2⟩ := h
        rw [← h1, ← h2]
        subst hdb1
        refine ⟨rfl, rfl, rfl, rfl, ?_, rfl, rfl, rfl, rfl,
          Or.inr ⟨rfl, by rw [hpl]; rfl, by rw [hpl]⟩⟩
        · rfl

/-! ## Position-uniqueness preservation -/

/-- `next_position` is strictly greater than every active position of the
route: one more than the maximum. -/
theorem next_position_gt (db : DB) (route : Route) :
    ∀ x ∈ (activeFor db route.id).map (fun p => p.position),
      x < next_position db route := by
  intro x hx
  unfold next_position
  cases hm : ((activeFor db route.id).map (fun p => p.position)).maximum with
  | bot =>
    rw [List.maximum_eq_bot] at hm
    rw [hm] at hx
    cases hx
  | coe m =>
    have hxm : x ≤ m := List.le_maximum_of_mem hx hm
    rw [WithBot.unbot'_coe]
    omega

/-- `soft_delete_point` shrinks the route's active set to the rows whose
primary key differs from the deleted one. -/
theorem activeFor_soft_delete (db : DB) (pt : RoutePoint) (rid : Nat) :
    activeFor (soft_delete_point db pt) rid =
      db.route_points.filter (fun p => isActivePoint rid p && !(p.id == pt.id)) := by
  unfold activeFor soft_delete_point
  rw [List.filter_map]
  rw [List.filter_congr (q := fun p => isActivePoint rid p && !(p.id == pt.id)) ?_]
  · refine (List.map_congr_left ?_).trans (List.map_id _)
    intro p hp
    have h := List.of_mem_filter hp
    simp only [Bool.and_eq_true, Bool.not_eq_true'] at h
    rw [if_neg (by simp [h.2])]
    rfl
  · intro p _
    by_cases hid : (p.id == pt.id) = true
    · simp only [Function.comp_apply, if_pos hid, hid]
      simp [isActivePoint]
    · simp only [Function.comp_apply, if_neg hid]
      simp only [Bool.not_eq_true] at hid
      simp [hid]

/-- Soft delete preserves the distinctness of active positions for every
route. -/
theorem inv_after_soft_delete (db : DB) (pt : RoutePoint) (h : wfB db = true) :
    ∀ r ∈ db.routes,
      (((activeFor (soft_delete_point db pt) r.id)).map (fun p => p.position)).Nodup := by
  intro r hr
  rw [activeFor_soft_delete]
  have e : db.route_points.filter (fun p => isActivePoint r.id p && !(p.id == pt.id)) =
      (activeFor db r.id).filter (fun p => !(p.id == pt.id)) := by
    unfold activeFor
    rw [List.filter_filter]
    exact List.filter_congr (fun p _ => by rw [Bool.and_comm])
  rw [e]
  exact ((List.filter_sublist _).map _).nodup ((wf_spec db h).2.2.2.2.1 r hr)

/-- Ingesting a point preserves the distinctness of active positions for
every route: the new point's position exceeds every active position of its
route, and other routes are untouched. -/
theorem inv_after_add_point (db : DB) (route : Route) (input : PlaceInput)
    (npid nrid : Nat) (pt : RoutePoint) (db2 : DB) (h : wfB db = true)
    (hok : add_point db route input npid nrid = .ok (pt, db2)) :
    ∀ r ∈ db2.routes,
      ((activeFor db2 r.id).map (fun p => p.position)).Nodup := by
  obtain ⟨hrp, hroutes, _, hrid, hpos, _, _, _, _, _⟩ :=
    add_point_ok_shape db route input npid nrid pt db2 hok
  intro r hr
  rw [hroutes] at hr
  have hact : activeFor db2 r.id = activeFor db r.id ++ List.filter (isActivePoint r.id) [pt] := by
    unfold activeFor
    rw [hrp, List.filter_append]
  rw [hact]
  cases hc : isActivePoint r.id pt with
  | false =>
    rw [show List.filter (isActivePoint r.id) [pt] = [] by simp [hc]]
    rw [List.append_nil]
    exact (wf_spec db h).2.2.2.2.1 r hr
  | true =>
    have hrr : route.id = r.id := by
      have := hc
      simp only [isActivePoint, Bool.and_eq_true, beq_iff_eq] at this
      rw [← this.1, hrid]
    rw [show List.filter (isActivePoint r.id) [pt] = [pt] by simp [hc]]
    rw [List.map_append]
    simp only [List.map_cons, List.map_nil]
    refine (List.perm_append_singleton pt.position
      ((activeFor db r.id).map (fun p => p.position))).nodup_iff.mpr ?_
    rw [List.nodup_cons]
    constructor
    · intro hmem
      have := next_position_gt db route pt.position (by rw [hrr]; exact hmem)
      omega
    · exact (wf_spec db h).2.2.2.2.1 r hr

/-- Optimize preserves the distinctness of active positions for every route:
the optimized route gets positions `0..n-1`, other routes are untouched. -/
theorem inv_after_optimize (db : DB) (route : Route) (h : wfB db = true) :
    ∀ r ∈ db.routes,
      ((activeFor (afterOptimize db route) r.id).map (fun p => p.position)).Nodup := by
  intro r hr
  by_cases hrid : r.id = route.id
  · rw [hrid]
    refine ((active_after_perm_nnOut db route h).map (fun p => p.position)).nodup_iff.mpr ?_
    rw [nnOut_positions db route]
    exact (List.nodup_range _).map (fun a b hab => Int.ofNat.inj hab)
  · rw [activeFor_afterOptimize]
    have e : (activeFor db r.id).map (applyUpd (updsFinal db route)) = activeFor db r.id := by
      refine (List.map_congr_left ?_).trans (List.map_id _)
      intro p hp
      refine applyUpd_skips db route h p (List.mem_of_mem_filter hp) (Or.inr ?_)
      have := List.of_mem_filter hp
      simp only [isActivePoint, Bool.and_eq_true, beq_iff_eq] at this
      rw [this.1]
      exact hrid
    rw [e]
    exact (wf_spec db h).2.2.2.2.1 r hr

/-! ## Concrete test fixtures (mirroring the repository's test data) -/

/-- Warsaw Royal Castle (tests/test_services.py setUp). -/
def castle : Place :=
  { id := 1, name := "Royal Castle", osm_id := none, wikipedia_id := none,
    address := some "Plac Zamkowy 4", city := none, country := none,
    lat := 52.2480, lon := 21.0153 }

/-- Old Town Market Square — between the Castle and the Barbican. -/
def marketSquare : Place :=
  { id := 2, name := "Old Town Market Square", osm_id := none, wikipedia_id := none,
    address := some "Rynek Starego Miasta", city := none, country := none,
    lat := 52.2497, lon := 21.0122 }

/-- Warsaw Barbican — farthest from the Castle. -/
def barbican : Place :=
  { id := 3, name := "Barbican", osm_id := none, wikipedia_id := none,
    address := some "Nowomiejska 15/17", city := none, country := none,
    lat := 52.2509, lon := 21.0089 }

/-- The manual route of Scenario A. -/
def scenarioA_route : Route :=
  { id := 1, user_id := 1, name := "Manual Test Route",
    status := RouteStatus.temporary, route_type := RouteType.manual,
    saved_at := none }

/-- Scenario A point: Castle at position 0. -/
def ptCastle : RoutePoint :=
  { id := 1, route_id := 1, place_id := 1, source := PointSource.manual,
    position := 0, optimized_position := none, is_removed := false }

/-- Scenario A point: Barbican at position 1 (inserted second). -/
def ptBarbican : RoutePoint :=
  { id := 2, route_id := 1, place_id := 3, source := PointSource.manual,
    position := 1, optimized_position := none, is_removed := false }

/-- Scenario A point: Market Square at position 2 (inserted third). -/
def ptMarket : RoutePoint :=
  { id := 3, route_id := 1, place_id := 2, source := PointSource.manual,
    position := 2, optimized_position := none, is_removed := false }

/-- Scenario A state: points inserted in order Castle, Barbican, Market
Square (positions 0, 1, 2). -/
def scenarioA_db : DB :=
  { places := [castle, marketSquare, barbican],
    routes := [scenarioA_route],
    route_points := [ptCastle, ptBarbican, ptMarket],
    descriptions := [] }

/-- Scenario B state: the same manual route with a single active point. -/
def scenarioB_db : DB :=
  { places := [castle],
    routes := [scenarioA_route],
    route_points := [ptCastle],
    descriptions := [] }

/-- A generic valid place input used by ingestion witnesses. -/
def basicInput : PlaceInput :=
  { name := "New Place", lat := 52.25, lon := 21.01 }

/-- A manual route already holding ten active points (positions 0..9) on one
shared place. -/
def capRoute : Route :=
  { id := 7, user_id := 1, name := "Full Route",
    status := RouteStatus.temporary, route_type := RouteType.manual,
    saved_at := none }

/-- State for the cap-enforcement scenario: ten active points. -/
def cap_db : DB :=
  { places := [castle],
    routes := [capRoute],
    route_points :=
      (List.range 10).map (fun i =>
        { id := i + 1, route_id := 7, place_id := 1, source := PointSource.manual,
          position := (i : Int), optimized_position := none, is_removed := false }),
    descriptions := [] }

/-- A stored place whose `osm_id` is the falsy integer `0`. -/
def zeroOsmPlace : Place :=
  { id := 1, name := "Zero", osm_id := some 0, wikipedia_id := none,
    address := none, city := none, country := none, lat := 1, lon := 2 }

/-- State for the osm-truthiness counterexample. -/
def c7cex_db : DB :=
  { places := [zeroOsmPlace],
    routes := [scenarioA_route],
    route_points := [],
    descriptions := [] }

/-- Ingestion input supplying `osm_id = 0`, which matches `zeroOsmPlace` but
is falsy in the lookup. -/
def c7cex_input : PlaceInput :=
  { name := "Zero Again", lat := 3, lon := 4, osm_id := some 0 }

/-- A stored place with a truthy `osm_id`, for the dedup witness. -/
def osmPlace : Place :=
  { id := 1, name := "Stored Name", osm_id := some 5, wikipedia_id := none,
    address := none, city := none, country := none, lat := 10, lon := 20 }

/-- State for the dedup witness. -/
def c7wit_db : DB :=
  { places := [osmPlace],
    routes := [scenarioA_route],
    route_points := [],
    descriptions := [] }

/-- Input whose `osm_id` matches `osmPlace` while every other field differs. -/
def c7wit_input : PlaceInput :=
  { name := "Different Name", lat := 11, lon := 21, osm_id := some 5 }

/-- A temporary route used for the `saved_at` fixtures. -/
def c9_route : Route :=
  { id := 9, user_id := 1, name := "Lifecycle",
    status := RouteStatus.saved, route_type := RouteType.manual,
    saved_at := some 100 }

/-- State for the `saved_at` counterexample. -/
def c9_db : DB :=
  { places := [], routes := [c9_route], route_points := [], descriptions := [] }

/-! ## Claim theorems -/

/-- C2: after every successful optimize call on a manual route with N active
points, the position values of those N active points are exactly the set
{0, 1, ..., N-1}, each value used exactly once. -/
theorem c2_optimize_positions_exactly_range (db : DB) (route : Route)
    (config : Option String) (hwf : wfB db = true)
    (hty : route.route_type = RouteType.manual)
    (hlen : 2 ≤ (active_points db route).length) :
    ∃ out db2, optimize_route db route config = Except.ok (out, db2) ∧
      ((activeFor db2 route.id).map (fun p => p.position)).Perm
        ((List.range (active_points db route).length).map Int.ofNat) := by
  refine ⟨_, _, optimize_route_ok db route config hty hlen, ?_⟩
  have hperm := (active_after_perm_nnOut db route hwf).map (fun p => p.position)
  rwa [nnOut_positions db route, nnList_length db route hwf] at hperm

/-- Witness for C2 on Scenario A's concrete three-point route. -/
theorem c2_optimize_positions_exactly_range_witness :
    ∃ out db2,
      optimize_route scenarioA_db scenarioA_route none = Except.ok (out, db2) ∧
      ((activeFor db2 scenarioA_route.id).map (fun p => p.position)).Perm
        ((List.range (active_points scenarioA_db scenarioA_route).length).map
          Int.ofNat) :=
  c2_optimize_positions_exactly_range scenarioA_db scenarioA_route none
    (by decide) (by decide) (by decide)

/-- C3: for every route, active positions are pairwise distinct, and the
invariant is preserved by point ingestion, by optimize, and by soft
delete. -/
theorem c3_active_position_uniqueness (db : DB) (hwf : wfB db = true) :
    (∀ r ∈ db.routes, ((activeFor db r.id).map (fun p => p.position)).Nodup) ∧
    (∀ route input npid nrid pt db2,
      add_point db route input npid nrid = Except.ok (pt, db2) →
      ∀ r ∈ db2.routes, ((activeFor db2 r.id).map (fun p => p.position)).Nodup) ∧
    (∀ route config, route.route_type = RouteType.manual →
      2 ≤ (active_points db route).length →
      ∃ out db2, optimize_route db route config = Except.ok (out, db2) ∧
        ∀ r ∈ db2.routes, ((activeFor db2 r.id).map (fun p => p.position)).Nodup) ∧
    (∀ pt, ∀ r ∈ db.routes,
      ((activeFor (soft_delete_point db pt) r.id).map (fun p => p.position)).Nodup) := by
  refine ⟨(wf_spec db hwf).2.2.2.2.1, ?_, ?_, fun pt => inv_after_soft_delete db pt hwf⟩
  · intro route input npid nrid pt db2 hok
    exact inv_after_add_point db route input npid nrid pt db2 hwf hok
  · intro route config hty hlen
    refine ⟨_, _, optimize_route_ok db route config hty hlen, ?_⟩
    intro r hr
    exact inv_after_optimize db route hwf r hr

/-- Witness for C3: the invariant is preserved when soft-deleting the middle
point of Scenario A. -/
theorem c3_active_position_uniqueness_witness :
    ((activeFor (soft_delete_point scenarioA_db ptBarbican)
        scenarioA_route.id).map (fun p => p.position)).Nodup :=
  (c3_active_position_uniqueness scenarioA_db (by decide)).2.2.2
    ptBarbican scenarioA_route (by decide)

/-- C4: optimize fails (with a business-rule violation) exactly when the
route is not manual or has fewer than two active points, and a failed call
leaves the state unchanged. -/
theorem c4_optimize_failure_iff (db : DB) (route : Route) (config : Option String) :
    ((∃ msg, optimize_route db route config = .error (ApiError.business msg)) ↔
      (route.route_type ≠ RouteType.manual ∨ (active_points db route).length < 2)) ∧
    (∀ e, optimize_route db route config = Except.error e →
      optimize_route_run db route config = db) := by
  refine ⟨optimize_route_error_iff db route config, ?_⟩
  intro e he
  unfold optimize_route_run
  rw [he]

/-- Witness for C4 on Scenario B's one-point route: the failed call leaves
the state unchanged. -/
theorem c4_optimize_failure_iff_witness :
    optimize_route_run scenarioB_db scenarioA_route none = scenarioB_db :=
  (c4_optimize_failure_iff scenarioB_db scenarioA_route none).2
    (ApiError.business "Trasa musi miec co najmniej 2 punkty.") rfl

/-- C6: on a manual route that already has ten active points, a (field-valid)
ingestion attempt fails with the business-rule violation "Max points limit
reached." and creates neither a `RoutePoint` nor a `Place`: the state is
unchanged. -/
theorem c6_cap_blocks_ingestion (db : DB) (route : Route) (input : PlaceInput)
    (npid nrid : Nat)
    (hty : route.route_type = RouteType.manual)
    (hname1 : input.name ≠ "") (hname2 : input.name.length ≤ 255)
    (hlat : -90 ≤ input.lat ∧ input.lat ≤ 90)
    (hlon : -180 ≤ input.lon ∧ input.lon ≤ 180)
    (hcap : 10 ≤ (activeFor db route.id).length) :
    add_point db route input npid nrid =
      Except.error (ApiError.validation "Max points limit reached.") ∧
    add_point_run db route input npid nrid = db := by
  have hval : run_validation db route input =
      .error (.validation "Max points limit reached.") := by
    unfold run_validation
    rw [if_neg hname1, if_neg (by omega),
      if_neg (by rw [not_or, not_lt, not_lt]; exact ⟨hlat.1, hlat.2⟩),
      if_neg (by rw [not_or, not_lt, not_lt]; exact ⟨hlon.1, hlon.2⟩),
      if_neg (by simp [hty]), if_pos hcap]
  have h1 : add_point db route input npid nrid =
      Except.error (ApiError.validation "Max points limit reached.") := by
    unfold add_point
    rw [hval]
  refine ⟨h1, ?_⟩
  unfold add_point_run
  rw [h1]

/-- Witness for C6 on the concrete ten-point route. -/
theorem c6_cap_blocks_ingestion_witness :
    add_point cap_db capRoute basicInput 99 99 =
      Except.error (ApiError.validation "Max points limit reached.") ∧
    add_point_run cap_db capRoute basicInput 99 99 = cap_db :=
  c6_cap_blocks_ingestion cap_db capRoute basicInput 99 99
    rfl (by decide) (by decide) (by norm_num [basicInput]) (by norm_num [basicInput])
    (by decide)

/-- C10: optimize touches no `Place` or `Description` row, preserves every
field of every removed point (as well as everything but `position` on all
points), and keeps the active point count of the route unchanged. -/
theorem c10_optimize_frame (db : DB) (route : Route) (config : Option String)
    (hwf : wfB db = true)
    (hty : route.route_type = RouteType.manual)
    (hlen : 2 ≤ (active_points db route).length) :
    ∃ out db2, optimize_route db route config = Except.ok (out, db2) ∧
      db2.places = db.places ∧
      db2.descriptions = db.descriptions ∧
      db2.routes = db.routes ∧
      List.Forall₂ (fun p p2 : RoutePoint =>
          p2.id = p.id ∧ p2.route_id = p.route_id ∧ p2.place_id = p.place_id ∧
          p2.source = p.source ∧ p2.optimized_position = p.optimized_position ∧
          p2.is_removed = p.is_removed ∧ (p.is_removed = true → p2 = p))
        db.route_points db2.route_points ∧
      (activeFor db2 route.id).length = (activeFor db route.id).length := by
  refine ⟨_, _, optimize_route_ok db route config hty hlen, rfl, rfl, rfl, ?_, ?_⟩
  · rw [afterOptimize_route_points, List.forall₂_map_right_iff, List.forall₂_same]
    intro p hp
    obtain ⟨f1, f2, f3, f4, f5, f6⟩ := applyUpd_fields (updsFinal db route) p
    exact ⟨f1, f2, f3, f4, f5, f6,
      fun hrem => applyUpd_skips db route hwf p hp (Or.inl hrem)⟩
  · rw [activeFor_afterOptimize, List.length_map]

/-- Witness for C10 on Scenario A. -/
theorem c10_optimize_frame_witness :
    ∃ out db2,
      optimize_route scenarioA_db scenarioA_route none = Except.ok (out, db2) ∧
      db2.places = scenarioA_db.places ∧
      db2.descriptions = scenarioA_db.descriptions ∧
      db2.routes = scenarioA_db.routes ∧
      List.Forall₂ (fun p p2 : RoutePoint =>
          p2.id = p.id ∧ p2.route_id = p.route_id ∧ p2.place_id = p.place_id ∧
          p2.source = p.source ∧ p2.optimized_position = p.optimized_position ∧
          p2.is_removed = p.is_removed ∧ (p.is_removed = true → p2 = p))
        scenarioA_db.route_points db2.route_points ∧
      (activeFor db2 scenarioA_route.id).length =
        (activeFor scenarioA_db scenarioA_route.id).length :=
  c10_optimize_frame scenarioA_db scenarioA_route none
    (by decide) (by decide) (by decide)

/-! ## Place lookup characterization -/

/-- A truthy `osm_id` with a stored match makes the osm lookup succeed with a
matching stored place. -/
theorem osm_lookup_match (db : DB) (o : Int) (hnz : o ≠ 0)
    (hex : ∃ pl ∈ db.places, pl.osm_id = some o) :
    ∃ pl, osm_lookup db (some o) = some pl ∧ pl ∈ db.places ∧
      pl.osm_id = some o := by
  simp only [osm_lookup]
  rw [if_pos hnz]
  cases hf : db.places.find? (fun pl => pl.osm_id == some o) with
  | none =>
    obtain ⟨pl0, hpl0, hosm⟩ := hex
    rw [List.find?_eq_none] at hf
    exact absurd (by simp [hosm]) (hf pl0 hpl0)
  | some pl =>
    refine ⟨pl, rfl, List.mem_of_find?_eq_some hf, ?_⟩
    have := List.find?_some hf
    simpa using this

/-- Without a truthy, matching `osm_id` the osm lookup finds nothing. -/
theorem osm_lookup_none (db : DB) (osm_id : Option Int)
    (h : ∀ o, osm_id = some o → o ≠ 0 → ∀ pl ∈ db.places, pl.osm_id ≠ some o) :
    osm_lookup db osm_id = none := by
  cases osm_id with
  | none => rfl
  | some o =>
    simp only [osm_lookup]
    by_cases hnz : o ≠ 0
    · rw [if_pos hnz, List.find?_eq_none]
      intro pl hpl
      simp only [beq_iff_eq]
      exact h o rfl hnz pl hpl
    · rw [if_neg hnz]

/-- A truthy `wikipedia_id` with a stored match makes the wikipedia lookup
succeed with a matching stored place. -/
theorem wiki_lookup_match (db : DB) (w : String) (hne : w ≠ "")
    (hex : ∃ pl ∈ db.places, pl.wikipedia_id = some w) :
    ∃ pl, wiki_lookup db (some w) = some pl ∧ pl ∈ db.places ∧
      pl.wikipedia_id = some w := by
  simp only [wiki_lookup]
  rw [if_pos hne]
  cases hf : db.places.find? (fun pl => pl.wikipedia_id == some w) with
  | none =>
    obtain ⟨pl0, hpl0, hw⟩ := hex
    rw [List.find?_eq_none] at hf
    exact absurd (by simp [hw]) (hf pl0 hpl0)
  | some pl =>
    refine ⟨pl, rfl, List.mem_of_find?_eq_some hf, ?_⟩
    have := List.find?_some hf
    simpa using this

/-- Without a truthy, matching `wikipedia_id` the wikipedia lookup finds
nothing. -/
theorem wiki_lookup_none (db : DB) (wikipedia_id : Option String)
    (h : ∀ w, wikipedia_id = some w → w ≠ "" →
      ∀ pl ∈ db.places, pl.wikipedia_id ≠ some w) :
    wiki_lookup db wikipedia_id = none := by
  cases wikipedia_id with
  | none => rfl
  | some w =>
    simp only [wiki_lookup]
    by_cases hne : w ≠ ""
    · rw [if_pos hne, List.find?_eq_none]
      intro pl hpl
      simp only [beq_iff_eq]
      exact h w rfl hne pl hpl
    · rw [if_neg hne]

/-- C7 (amended): place resolution reuses a stored place matched by a truthy
(present, nonzero) `osm_id`; otherwise one matched by a truthy (present,
non-empty) `wikipedia_id`; otherwise a new place is created from the input —
with the osm lookup strictly taking precedence. -/
theorem c7_place_resolution_priority (db : DB) (route : Route)
    (input : PlaceInput) (npid nrid : Nat) (pt : RoutePoint) (db2 : DB)
    (hok : add_point db route input npid nrid = Except.ok (pt, db2)) :
    ((∃ o, input.osm_id = some o ∧ o ≠ 0 ∧ ∃ pl ∈ db.places, pl.osm_id = some o) →
      ∃ pl ∈ db.places, pl.osm_id = input.osm_id ∧ pt.place_id = pl.id ∧
        db2.places = db.places) ∧
    ((∀ o, input.osm_id = some o → o ≠ 0 → ∀ pl ∈ db.places, pl.osm_id ≠ some o) →
      (∃ w, input.wikipedia_id = some w ∧ w ≠ "" ∧
        ∃ pl ∈ db.places, pl.wikipedia_id = some w) →
      ∃ pl ∈ db.places, pl.wikipedia_id = input.wikipedia_id ∧
        pt.place_id = pl.id ∧ db2.places = db.places) ∧
    ((∀ o, input.osm_id = some o → o ≠ 0 → ∀ pl ∈ db.places, pl.osm_id ≠ some o) →
      (∀ w, input.wikipedia_id = some w → w ≠ "" →
        ∀ pl ∈ db.places, pl.wikipedia_id ≠ some w) →
      pt.place_id = npid ∧
      db2.places = db.places ++ [new_place_of_input input npid]) := by
  obtain ⟨_, _, _, _, _, _, _, _, _, hdisj⟩ :=
    add_point_ok_shape db route input npid nrid pt db2 hok
  refine ⟨?_, ?_, ?_⟩
  · rintro ⟨o, ho, hnz, hex⟩
    obtain ⟨pl1, hf, hmem, hosm1⟩ := osm_lookup_match db o hnz hex
    have hlp : lookup_place db input = some pl1 := by
      unfold lookup_place
      rw [ho, hf]
    rcases hdisj with ⟨pl, hlook, hpid, hpls⟩ | ⟨hnone, _, _⟩
    · have hple : pl = pl1 := by
        have := hlook.symm.trans hlp
        exact Option.some.inj this
      exact ⟨pl1, hmem, by rw [ho]; exact hosm1, by rw [← hple]; exact hpid,
        hpls⟩
    · rw [hnone] at hlp
      cases hlp
  · intro hno hwiki
    obtain ⟨w, hw, hwne, hex⟩ := hwiki
    have hosmn : osm_lookup db input.osm_id = none := osm_lookup_none db _ hno
    obtain ⟨pl1, hf, hmem, hwiki1⟩ := wiki_lookup_match db w hwne hex
    have hlp : lookup_place db input = some pl1 := by
      unfold lookup_place
      rw [hosmn, hw, hf]
    rcases hdisj with ⟨pl, hlook, hpid, hpls⟩ | ⟨hnone, _, _⟩
    · have hple : pl = pl1 := Option.some.inj (hlook.symm.trans hlp)
      exact ⟨pl1, hmem, by rw [hw]; exact hwiki1, by rw [← hple]; exact hpid,
        hpls⟩
    · rw [hnone] at hlp
      cases hlp
  · intro hno hnow
    have hlp : lookup_place db input = none := by
      unfold lookup_place
      rw [osm_lookup_none db _ hno, wiki_lookup_none db _ hnow]
    rcases hdisj with ⟨pl, hlook, _, _⟩ | ⟨_, hpid, hpls⟩
    · rw [hlook] at hlp
      cases hlp
    · exact ⟨hpid, hpls⟩

/-! ## Concrete ingestion evaluations -/

/-- The point appended in the dedup witness scenario. -/
def c7wit_pt : RoutePoint :=
  { id := 1, route_id := 1, place_id := 1, source := PointSource.manual,
    position := 0, optimized_position := none, is_removed := false }

/-- The state after the dedup witness ingestion: no place row added. -/
def c7wit_db2 : DB :=
  { places := [osmPlace],
    routes := [scenarioA_route],
    route_points := [c7wit_pt],
    descriptions := [] }

/-- Evaluating the dedup witness ingestion. -/
theorem c7wit_eval :
    add_point c7wit_db scenarioA_route c7wit_input 2 1 =
      Except.ok (c7wit_pt, c7wit_db2) := by
  have hval : run_validation c7wit_db scenarioA_route c7wit_input = .ok () := by
    unfold run_validation
    rw [if_neg (by decide), if_neg (by decide),
      if_neg (by norm_num [c7wit_input]), if_neg (by norm_num [c7wit_input]),
      if_neg (by decide), if_neg (by decide)]
  unfold add_point
  rw [hval]
  rfl

/-- Witness for the amended C7: the supplied `osm_id = 5` matches the stored
place, which is reused with zero new place rows although the other fields
differ. -/
theorem c7_place_resolution_priority_witness :
    ∃ pl ∈ c7wit_db.places, pl.osm_id = c7wit_input.osm_id ∧
      c7wit_pt.place_id = pl.id ∧ c7wit_db2.places = c7wit_db.places :=
  (c7_place_resolution_priority c7wit_db scenarioA_route c7wit_input 2 1
      c7wit_pt c7wit_db2 c7wit_eval).1
    ⟨5, rfl, by decide, ⟨osmPlace, by decide, rfl⟩⟩

/-- C7 counterexample: with `osm_id = 0` supplied and a stored place whose
`osm_id` is `0`, the claimed reuse does not happen — `if osm_id:` treats `0`
as absent, the code goes on to create a duplicate place, and the unique
constraint on `osm_id` makes the whole ingestion fail. -/
theorem c7_counterexample :
    add_point c7cex_db scenarioA_route c7cex_input 2 1 =
      Except.error (ApiError.integrity "duplicate osm_id") ∧
    ∀ pt db2, add_point c7cex_db scenarioA_route c7cex_input 2 1 ≠
      Except.ok (pt, db2) := by
  have h1 : add_point c7cex_db scenarioA_route c7cex_input 2 1 =
      Except.error (ApiError.integrity "duplicate osm_id") := by
    have hval : run_validation c7cex_db scenarioA_route c7cex_input = .ok () := by
      unfold run_validation
      rw [if_neg (by decide), if_neg (by decide),
        if_neg (by norm_num [c7cex_input]), if_neg (by norm_num [c7cex_input]),
        if_neg (by decide), if_neg (by decide)]
    unfold add_point
    rw [hval]
    rfl
  exact ⟨h1, fun pt db2 h => by rw [h1] at h; exact Except.noConfusion h⟩

/-! ## Scenario D: next position after deleting the middle point -/

/-- The point created by the Scenario D ingestion. -/
def c5_new_pt : RoutePoint :=
  { id := 4, route_id := 1, place_id := 4, source := PointSource.manual,
    position := 3, optimized_position := none, is_removed := false }

/-- The soft-deleted middle point of Scenario D. -/
def c5_removed_pt : RoutePoint :=
  { id := 2, route_id := 1, place_id := 3, source := PointSource.manual,
    position := 1, optimized_position := none, is_removed := true }

/-- The place created by the Scenario D ingestion. -/
def c5_new_place : Place := new_place_of_input basicInput 4

/-- The state after the Scenario D ingestion. -/
def c5_db2 : DB :=
  { places := [castle, marketSquare, barbican, c5_new_place],
    routes := [scenarioA_route],
    route_points := [ptCastle, c5_removed_pt, ptMarket, c5_new_pt],
    descriptions := [] }

/-- Evaluating the Scenario D ingestion: soft-delete the position-1 point of
Scenario A, then ingest one more point. -/
theorem scenarioD_eval :
    add_point (soft_delete_point scenarioA_db ptBarbican) scenarioA_route
      basicInput 4 4 = Except.ok (c5_new_pt, c5_db2) := by
  have hval : run_validation (soft_delete_point scenarioA_db ptBarbican)
      scenarioA_route basicInput = .ok () := by
    unfold run_validation
    rw [if_neg (by decide), if_neg (by decide),
      if_neg (by norm_num [basicInput]), if_neg (by norm_num [basicInput]),
      if_neg (by decide), if_neg (by decide)]
  unfold add_point
  rw [hval]
  rfl

/-- C5 counterexample: Scenario D's ingestion yields position `3`, not the
claimed `2` — `next_position` is one more than the maximum active position
(`2`, held by the still-active third point). -/
theorem c5_counterexample :
    add_point (soft_delete_point scenarioA_db ptBarbican) scenarioA_route
      basicInput 4 4 = Except.ok (c5_new_pt, c5_db2) ∧
    c5_new_pt.position ≠ 2 :=
  ⟨scenarioD_eval, by decide⟩

/-- C5 (amended): on a route whose active points sit at positions 0, 1, 2,
soft-deleting the point at position 1 and ingesting one more point yields
position `3` for the new point (max active position 2, plus one; the removed
slot is not reused and does not lower the next position). -/
theorem c5_next_position_after_middle_delete (db : DB) (route : Route)
    (p1 : RoutePoint) (input : PlaceInput) (npid nrid : Nat)
    (pt : RoutePoint) (db2 : DB)
    (hwf : wfB db = true)
    (hmem : p1 ∈ db.route_points)
    (hpos1 : p1.position = 1)
    (hacts : ((activeFor db route.id).map (fun p => p.position)).Perm [0, 1, 2])
    (hok : add_point (soft_delete_point db p1) route input npid nrid =
      Except.ok (pt, db2)) :
    pt.position = 3 := by
  have hshape := add_point_ok_shape _ route input npid nrid pt db2 hok
  rw [hshape.2.2.2.2.1]
  unfold next_position
  rw [activeFor_soft_delete]
  have e : db.route_points.filter
        (fun p => isActivePoint route.id p && !(p.id == p1.id)) =
      (activeFor db route.id).filter (fun p => !(p.id == p1.id)) := by
    unfold activeFor
    rw [List.filter_filter]
    exact List.filter_congr (fun p _ => by rw [Bool.and_comm])
  rw [e]
  have hmax : ((((activeFor db route.id).filter
      (fun p => !(p.id == p1.id))).map (fun p => p.position)).maximum : WithBot Int) =
      ((2 : Int) : WithBot Int) := by
    rw [List.maximum_eq_coe_iff]
    constructor
    · have h2 : (2 : Int) ∈ (activeFor db route.id).map (fun p => p.position) :=
        hacts.mem_iff.mpr (by simp)
      obtain ⟨q, hq, hq2⟩ := List.mem_map.mp h2
      have hqid : (q.id == p1.id) = false := by
        simp only [beq_eq_false_iff_ne, ne_eq]
        intro he
        have hqeq : q = p1 := List.inj_on_of_nodup_map (wf_spec db hwf).1
          (List.mem_of_mem_filter hq) hmem he
        rw [hqeq, hpos1] at hq2
        norm_num at hq2
      exact List.mem_map.mpr
        ⟨q, List.mem_filter.mpr ⟨hq, by simp [hqid]⟩, hq2⟩
    · intro a ha
      obtain ⟨q, hq, hqa⟩ := List.mem_map.mp ha
      have hqmem : q ∈ activeFor db route.id := List.mem_of_mem_filter hq
      have hmem2 : a ∈ (activeFor db route.id).map (fun p => p.position) :=
        List.mem_map.mpr ⟨q, hqmem, hqa⟩
      have hmem3 := hacts.mem_iff.mp hmem2
      simp only [List.mem_cons, List.not_mem_nil, or_false] at hmem3
      rcases hmem3 with h | h | h <;> omega
  rw [hmax, WithBot.unbot'_coe]
  decide

/-- Witness for the amended C5 on the concrete Scenario D data. -/
theorem c5_next_position_after_middle_delete_witness :
    c5_new_pt.position = 3 :=
  c5_next_position_after_middle_delete scenarioA_db scenarioA_route ptBarbican
    basicInput 4 4 c5_new_pt c5_db2 (by decide) (by decide) rfl (by decide)
    scenarioD_eval

/-! ## C9: saved_at across status transitions -/

/-- C9 counterexample: a route saved at time 100, set back to `temporary` at
time 200 (which leaves `saved_at` at 100), and saved again at time 300 ends
with `saved_at = 300`: the timestamp is overwritten by the re-transition,
not set exactly once. -/
theorem c9_counterexample :
    ((update_route c9_db c9_route ⟨none, some RouteStatus.temporary⟩ 200).1.saved_at
      = some 100) ∧
    ((update_route
        (update_route c9_db c9_route ⟨none, some RouteStatus.temporary⟩ 200).2
        (update_route c9_db c9_route ⟨none, some RouteStatus.temporary⟩ 200).1
        ⟨none, some RouteStatus.saved⟩ 300).1.saved_at = some 300) ∧
    (some 300 : Option Nat) ≠ some 100 := by
  refine ⟨rfl, rfl, by decide⟩

/-- Witness for the amended C9: a temporary route saved at time 500 gets
`saved_at = 500`. -/
theorem c9_saved_at_on_transition_to_saved_witness :
    (update_route scenarioA_db scenarioA_route
      ⟨none, some RouteStatus.saved⟩ 500).1.saved_at = some 500 := by
  rw [c9_saved_at_on_transition_to_saved scenarioA_db scenarioA_route
    ⟨none, some RouteStatus.saved⟩ 500]
  rw [if_pos ⟨rfl, by decide⟩]

/-- Witness for C8: soft-deleting an already-removed point is a no-op. -/
theorem c8_soft_delete_idempotent_witness :
    soft_delete_point (soft_delete_point scenarioA_db ptBarbican) ptBarbican =
      soft_delete_point scenarioA_db ptBarbican :=
  (c8_soft_delete_idempotent (soft_delete_point scenarioA_db ptBarbican)
    ptBarbican).2.2.2.2.2 (by decide)

/-! ## Monotonicity of the haversine distance in its inner value -/

/-- `atan2` on a positive second argument is `arctan` of the quotient. -/
theorem atan2_pos_x (y x : ℝ) (hx : 0 < x) : atan2 y x = Real.arctan (y / x) := by
  unfold atan2
  rw [if_pos hx]

/-- The haversine angle `arctan (√a / √(1-a))` is strictly monotone in the
inner value on `[0, 1)`. -/
theorem hav_angle_lt (a b : ℝ) (ha : 0 ≤ a) (hb1 : b < 1) (hab : a < b) :
    Real.arctan (Real.sqrt a / Real.sqrt (1 - a)) <
      Real.arctan (Real.sqrt b / Real.sqrt (1 - b)) := by
  apply Real.arctan_strictMono
  have h1a : 0 < 1 - a := by linarith
  have h1b : 0 < 1 - b := by linarith
  have hsa : Real.sqrt a < Real.sqrt b := Real.sqrt_lt_sqrt ha hab
  have hsb : Real.sqrt (1 - b) < Real.sqrt (1 - a) :=
    Real.sqrt_lt_sqrt (le_of_lt h1b) (by linarith)
  have hsa0 : 0 ≤ Real.sqrt a := Real.sqrt_nonneg a
  have hden_b : 0 < Real.sqrt (1 - b) := Real.sqrt_pos.mpr h1b
  have hden_a : 0 < Real.sqrt (1 - a) := Real.sqrt_pos.mpr h1a
  rw [div_lt_div_iff₀ hden_a hden_b]
  calc Real.sqrt a * Real.sqrt (1 - b)
      ≤ Real.sqrt a * Real.sqrt (1 - a) :=
        mul_le_mul_of_nonneg_left (le_of_lt hsb) hsa0
    _ < Real.sqrt b * Real.sqrt (1 - a) :=
        mul_lt_mul_of_pos_right hsa hden_a


/-- Squaring is monotone on positives. -/
theorem sq_lt_sq_of_pos {a b : ℝ} (ha : 0 < a) (hab : a < b) : a ^ 2 < b ^ 2 := by
  nlinarith

/-- Upper bound for a product of positively bounded factors. -/
theorem mul_lt_mul_of_bounds {a b c d : ℝ} (ha : 0 < a) (hab : a < b)
    (hc : 0 < c) (hcd : c < d) : a * c < b * d := by
  nlinarith

/-- A numeric bound on the square root of two. -/
theorem sqrt2_lt : Real.sqrt 2 < 1.41422 := by
  nlinarith [Real.sq_sqrt (show (0 : ℝ) ≤ 2 by norm_num), Real.sqrt_nonneg 2]

/-- Numeric core of Scenario A: the upper bound on the market-square
haversine value is below the lower bound on the barbican haversine value. -/
theorem key_numeric (q : ℝ) (hq1 : (0.01745328 : ℝ) < q) (hq2 : q < 0.01745330) :
    (0.00085 * q) ^ 2 + 0.51 * (0.00155 * q) ^ 2 <
      0.25 * (0.0032 * q - (0.0032 * q) ^ 3 / 4) ^ 2 := by
  have hq0 : (0 : ℝ) < q := by linarith
  have hq2sq : q ^ 2 < 0.000304618 := by nlinarith
  nlinarith [hq2sq, sq_nonneg q,
    mul_le_mul_of_nonneg_left (le_of_lt hq2sq) (sq_nonneg q),
    sq_nonneg (q ^ 3), sq_nonneg (q ^ 2)]

/-- The cubic lower bound for `sin` at the barbican longitude offset is
positive. -/
theorem t_sub_cube_pos (q : ℝ) (hq1 : (0.01745328 : ℝ) < q) (hq2 : q < 0.01745330) :
    (0 : ℝ) < 0.0032 * q - (0.0032 * q) ^ 3 / 4 := by
  have ht0 : (0 : ℝ) < 0.0032 * q := by linarith
  have ht1 : (0.0032 * q : ℝ) < 1 := by linarith
  nlinarith [mul_pos ht0 ht0, mul_lt_mul_of_pos_left ht1 (mul_pos ht0 ht0),
    mul_lt_mul_of_pos_left ht1 ht0]

/-- Tiny squares stay below one. -/
theorem small_sq_lt_one (q : ℝ) (hq0 : 0 < q) (hq2 : q < 0.01745330) :
    (0.00145 * q) ^ 2 + 1 * (0.0032 * q) ^ 2 < 1 := by
  nlinarith

set_option maxHeartbeats 1600000 in
/-- Scenario A's decisive comparison: among the remaining points, the Market
Square is strictly closer to the Castle than the Barbican is. -/
theorem dist_pair_lt :
    _calculate_distance 52.2480 21.0153 52.2497 21.0122 <
      _calculate_distance 52.2480 21.0153 52.2509 21.0089 := by
  simp only [_calculate_distance]
  set q : Real := Real.pi / 180 with hqdef
  have hpi1 := Real.pi_gt_3141592
  have hpi2 := Real.pi_lt_3141593
  have hq1 : (0.01745328 : ℝ) < q := by rw [hqdef]; linarith
  have hq2 : q < (0.01745330 : ℝ) := by rw [hqdef]; linarith
  have hq0 : (0 : ℝ) < q := by linarith
  have e1 : (52.2497 * q - 52.2480 * q) / 2 = 0.00085 * q := by ring
  have e2 : (21.0122 * q - 21.0153 * q) / 2 = -(0.00155 * q) := by ring
  have e3 : (52.2509 * q - 52.2480 * q) / 2 = 0.00145 * q := by ring
  have e4 : (21.0089 * q - 21.0153 * q) / 2 = -(0.0032 * q) := by ring
  rw [e1, e2, e3, e4]
  simp only [Real.sin_neg, neg_sq]
  set s1 := Real.sin (0.00085 * q) with hs1def
  set s2 := Real.sin (0.00155 * q) with hs2def
  set s3 := Real.sin (0.00145 * q) with hs3def
  set s4 := Real.sin (0.0032 * q) with hs4def
  set c1 := Real.cos (52.2480 * q) with hc1def
  set c2 := Real.cos (52.2497 * q) with hc2def
  set c3 := Real.cos (52.2509 * q) with hc3def
  set A := s1 ^ 2 + c1 * c2 * s2 ^ 2 with hAdef
  set B := s3 ^ 2 + c1 * c3 * s4 ^ 2 with hBdef
  have hx1 : (0 : ℝ) < 0.00085 * q := by linarith
  have hx2 : (0 : ℝ) < 0.00155 * q := by linarith
  have hx3 : (0 : ℝ) < 0.00145 * q := by linarith
  have hx4 : (0 : ℝ) < 0.0032 * q := by linarith
  have hs1pos : 0 < s1 := Real.sin_pos_of_pos_of_lt_pi hx1 (by linarith)
  have hs2pos : 0 < s2 := Real.sin_pos_of_pos_of_lt_pi hx2 (by linarith)
  have hs3pos : 0 < s3 := Real.sin_pos_of_pos_of_lt_pi hx3 (by linarith)
  have hs4pos : 0 < s4 := Real.sin_pos_of_pos_of_lt_pi hx4 (by linarith)
  have hs1lt : s1 < 0.00085 * q := Real.sin_lt hx1
  have hs2lt : s2 < 0.00155 * q := Real.sin_lt hx2
  have hs3lt : s3 < 0.00145 * q := Real.sin_lt hx3
  have hs4lt : s4 < 0.0032 * q := Real.sin_lt hx4
  have hs4gt : 0.0032 * q - (0.0032 * q) ^ 3 / 4 < s4 :=
    Real.sin_gt_sub_cube hx4 (by linarith)
  have hsqrt2 : Real.sqrt 2 < 1.41422 := sqrt2_lt
  have hphiC1 : Real.pi / 4 < 52.2480 * q := by linarith
  have hphiC2 : 52.2480 * q < Real.pi / 3 := by linarith
  have hphiM1 : Real.pi / 4 < 52.2497 * q := by linarith
  have hphiM2 : 52.2497 * q < Real.pi / 3 := by linarith
  have hphiB2 : 52.2509 * q < Real.pi / 3 := by linarith
  have hc1u : c1 < Real.sqrt 2 / 2 := by
    rw [hc1def, ← Real.cos_pi_div_four]
    exact Real.cos_lt_cos_of_nonneg_of_le_pi (by positivity) (by linarith) hphiC1
  have hc2u : c2 < Real.sqrt 2 / 2 := by
    rw [hc2def, ← Real.cos_pi_div_four]
    exact Real.cos_lt_cos_of_nonneg_of_le_pi (by positivity) (by linarith) hphiM1
  have hc1l : (1 : ℝ) / 2 < c1 := by
    rw [hc1def, ← Real.cos_pi_div_three]
    exact Real.cos_lt_cos_of_nonneg_of_le_pi (by linarith) (by linarith) hphiC2
  have hc2l : (1 : ℝ) / 2 < c2 := by
    rw [hc2def, ← Real.cos_pi_div_three]
    exact Real.cos_lt_cos_of_nonneg_of_le_pi (by linarith) (by linarith) hphiM2
  have hc3l : (1 : ℝ) / 2 < c3 := by
    rw [hc3def, ← Real.cos_pi_div_three]
    exact Real.cos_lt_cos_of_nonneg_of_le_pi (by linarith) (by linarith) hphiB2
  have hc3le : c3 ≤ 1 := by rw [hc3def]; exact Real.cos_le_one _
  have hc1u' : c1 < 0.70711 := by linarith
  have hc2u' : c2 < 0.70711 := by linarith
  have hc1pos : (0 : ℝ) < c1 := by linarith
  have hc2pos : (0 : ℝ) < c2 := by linarith
  have hc3pos : (0 : ℝ) < c3 := by linarith
  have hc12pos : 0 < c1 * c2 := mul_pos hc1pos hc2pos
  have hc13pos : 0 < c1 * c3 := mul_pos hc1pos hc3pos
  have hc12u : c1 * c2 < 0.51 := by
    have h := mul_lt_mul_of_bounds hc1pos hc1u' hc2pos hc2u'
    linarith
  have hc13l : (0.25 : ℝ) < c1 * c3 := by
    have h := mul_lt_mul_of_bounds (show (0 : ℝ) < 1 / 2 by norm_num) hc1l
      (show (0 : ℝ) < 1 / 2 by norm_num) hc3l
    linarith
  have hs1sq : s1 ^ 2 < (0.00085 * q) ^ 2 := sq_lt_sq_of_pos hs1pos hs1lt
  have hs2sq : s2 ^ 2 < (0.00155 * q) ^ 2 := sq_lt_sq_of_pos hs2pos hs2lt
  have hs3sq : s3 ^ 2 < (0.00145 * q) ^ 2 := sq_lt_sq_of_pos hs3pos hs3lt
  have hs4sqU : s4 ^ 2 < (0.0032 * q) ^ 2 := sq_lt_sq_of_pos hs4pos hs4lt
  have ht4pos := t_sub_cube_pos q hq1 hq2
  have hs4sqL : (0.0032 * q - (0.0032 * q) ^ 3 / 4) ^ 2 < s4 ^ 2 :=
    sq_lt_sq_of_pos ht4pos hs4gt
  have hApos : 0 ≤ A := by
    rw [hAdef]
    linarith [mul_nonneg (le_of_lt hc12pos) (sq_nonneg s2), sq_nonneg s1]
  have hAU : A < (0.00085 * q) ^ 2 + 0.51 * (0.00155 * q) ^ 2 := by
    rw [hAdef]
    have h1 : c1 * c2 * s2 ^ 2 < 0.51 * (0.00155 * q) ^ 2 :=
      mul_lt_mul_of_bounds hc12pos hc12u (pow_pos hs2pos 2) hs2sq
    linarith [hs1sq]
  have hBL : 0.25 * (0.0032 * q - (0.0032 * q) ^ 3 / 4) ^ 2 < B := by
    rw [hBdef]
    have h1 : 0.25 * (0.0032 * q - (0.0032 * q) ^ 3 / 4) ^ 2 < c1 * c3 * s4 ^ 2 :=
      mul_lt_mul_of_bounds (show (0 : ℝ) < 0.25 by norm_num) hc13l
        (pow_pos ht4pos 2) hs4sqL
    linarith [sq_nonneg s3]
  have hAB : A < B := by
    have h := key_numeric q hq1 hq2
    linarith
  have hBU : B < 1 := by
    rw [hBdef]
    have hc13u1 : c1 * c3 < 1 := by
      have h := mul_le_of_le_one_right (le_of_lt hc1pos) hc3le
      linarith
    have h1 : c1 * c3 * s4 ^ 2 < 1 * (0.0032 * q) ^ 2 :=
      mul_lt_mul_of_bounds hc13pos hc13u1 (pow_pos hs4pos 2) hs4sqU
    linarith [hs3sq, small_sq_lt_one q hq0 hq2]
  have hA1 : 0 < 1 - A := by linarith
  have hB1 : 0 < 1 - B := by linarith
  rw [atan2_pos_x _ _ (Real.sqrt_pos.mpr hA1), atan2_pos_x _ _ (Real.sqrt_pos.mpr hB1)]
  have harc := hav_angle_lt A B hApos hBU hAB
  linarith

/-! ## Scenario A evaluation of the nearest-neighbor heuristic -/

/-- The comparison `order_by('position')` uses is total. -/
instance instPosTotal : IsTotal RoutePoint (fun a b => a.position ≤ b.position) :=
  ⟨fun a b => Int.le_total a.position b.position⟩

/-- The comparison `order_by('position')` uses is transitive. -/
instance instPosTrans : IsTrans RoutePoint (fun a b => a.position ≤ b.position) :=
  ⟨fun _ _ _ h1 h2 => le_trans h1 h2⟩

/-- Scenario A's decisive comparison carried over the stored rational
coordinates of the fixture places. -/
theorem scenarioA_dist_lt :
    pointDist castle marketSquare < pointDist castle barbican := by
  unfold pointDist
  have e1 : ((castle.lat : ℚ) : ℝ) = 52.2480 := by norm_num [castle]
  have e2 : ((castle.lon : ℚ) : ℝ) = 21.0153 := by norm_num [castle]
  have e3 : ((marketSquare.lat : ℚ) : ℝ) = 52.2497 := by norm_num [marketSquare]
  have e4 : ((marketSquare.lon : ℚ) : ℝ) = 21.0122 := by norm_num [marketSquare]
  have e5 : ((barbican.lat : ℚ) : ℝ) = 52.2509 := by norm_num [barbican]
  have e6 : ((barbican.lon : ℚ) : ℝ) = 21.0089 := by norm_num [barbican]
  rw [e1, e2, e3, e4, e5, e6]
  exact dist_pair_lt

/-- The fetched point/place pairs of Scenario A, in current position order. -/
theorem scenarioA_fetch :
    fetchPoints scenarioA_db scenarioA_route =
      [(ptCastle, castle), (ptBarbican, barbican), (ptMarket, marketSquare)] := rfl

/-- From the Castle, `min` over the remaining pair picks the Market Square. -/
theorem scenarioA_min :
    minByFirst (fun q => pointDist castle q.2) (ptBarbican, barbican)
      [(ptMarket, marketSquare)] = (ptMarket, marketSquare) := by
  simp only [minByFirst]
  rw [if_pos scenarioA_dist_lt]

/-- The greedy loop on a single remaining point returns it. -/
theorem scenarioA_nnAux1 :
    nnAux marketSquare [(ptBarbican, barbican)] = [(ptBarbican, barbican)] := by
  rw [nnAux]
  show (ptBarbican, barbican) :: nnAux barbican [] = [(ptBarbican, barbican)]
  rw [nnAux]

/-- The greedy loop from the Castle on the remaining two points: Market
Square first, then the Barbican. -/
theorem scenarioA_nnAux2 :
    nnAux castle [(ptBarbican, barbican), (ptMarket, marketSquare)] =
      [(ptMarket, marketSquare), (ptBarbican, barbican)] := by
  rw [nnAux, scenarioA_min]
  show (ptMarket, marketSquare) :: nnAux marketSquare [(ptBarbican, barbican)] =
    [(ptMarket, marketSquare), (ptBarbican, barbican)]
  rw [scenarioA_nnAux1]

/-- The nearest-neighbor heuristic on Scenario A: Castle, Market Square,
Barbican. -/
theorem scenarioA_nn :
    nnList scenarioA_db scenarioA_route =
      [(ptCastle, castle), (ptMarket, marketSquare), (ptBarbican, barbican)] := by
  unfold nnList
  rw [scenarioA_fetch, nearest_neighbor_tsp_cons]
  show (ptCastle, castle) ::
    nnAux castle [(ptBarbican, barbican), (ptMarket, marketSquare)] = _
  rw [scenarioA_nnAux2]

/-- `optimize_route` on Scenario A returns Castle, Market Square, Barbican at
positions 0, 1, 2. -/
theorem scenarioA_optimize :
    optimize_route scenarioA_db scenarioA_route none =
      Except.ok ([{ ptCastle with position := 0 }, { ptMarket with position := 1 },
        { ptBarbican with position := 2 }],
        afterOptimize scenarioA_db scenarioA_route) := by
  have h : nnOut scenarioA_db scenarioA_route =
      [{ ptCastle with position := 0 }, { ptMarket with position := 1 },
       { ptBarbican with position := 2 }] := by
    unfold nnOut
    rw [scenarioA_nn]
    rfl
  rw [optimize_route_ok scenarioA_db scenarioA_route none (by decide) (by decide), h]

/-- C1: on every well-formed state, for every manual route with at least two
active points, `optimize_route` succeeds and returns the active points in
nearest-neighbor order: the point with the lowest current position is the
fixed first element, each subsequent element is the remaining point whose
place is closest by the haversine distance to the previously chosen place
(ties broken by the first minimal element in the remaining sequence's current
order), and the returned points carry positions 0..n-1 along that order; in
particular on Scenario A the resulting order is Castle, Market Square,
Barbican at positions 0, 1, 2. -/
theorem c1_optimize_nearest_neighbor_order :
    (∀ (db : DB) (route : Route) (config : Option String),
      wfB db = true →
      route.route_type = RouteType.manual →
      2 ≤ (active_points db route).length →
      ∃ p0 rest tl,
        fetchPoints db route = p0 :: rest ∧
        (∀ q ∈ rest, p0.1.position ≤ q.1.position) ∧
        NNChain p0.2 rest tl ∧
        optimize_route db route config =
          Except.ok ((p0 :: tl).enum.map
            (fun iq => ({ iq.2.1 with position := (iq.1 : Int) } : RoutePoint)),
            afterOptimize db route)) ∧
    optimize_route scenarioA_db scenarioA_route none =
      Except.ok ([{ ptCastle with position := 0 }, { ptMarket with position := 1 },
        { ptBarbican with position := 2 }],
        afterOptimize scenarioA_db scenarioA_route) := by
  constructor
  · intro db route config hwf hty hlen
    have hfk : ∀ p ∈ active_points db route, (findPlace db p.place_id).isSome :=
      fun p hp => (wf_spec db hwf).2.2.2.1 p (active_points_subset db route p hp)
    have hmap := fetch_map_fst db route hfk
    cases hf : fetchPoints db route with
    | nil =>
      rw [hf] at hmap
      rw [← hmap] at hlen
      simp at hlen
    | cons p0 rest =>
      refine ⟨p0, rest, nnAux p0.2 rest, rfl, ?_, ?_, ?_⟩
      · intro q hq
        have hsorted : List.Sorted (fun a b : RoutePoint => a.position ≤ b.position)
            (active_points db route) :=
          List.sorted_insertionSort _ _
        rw [← hmap, hf] at hsorted
        simp only [List.map_cons] at hsorted
        exact (List.sorted_cons.mp hsorted).1 q.1 (List.mem_map_of_mem _ hq)
      · have hnd : (rest.map (fun q => q.1.id)).Nodup := by
          have hall := fetch_ids_nodup db route hwf
          rw [hf] at hall
          exact (List.nodup_cons.mp (by simpa using hall)).2
        exact (nnAux_spec rest.length rest p0.2 rfl hnd).1
      · rw [optimize_route_ok db route config hty hlen]
        unfold nnOut nnList
        rw [hf, nearest_neighbor_tsp_cons]
  · exact scenarioA_optimize

/-- Witness for C1: the general statement instantiated on Scenario A's
concrete three-point state, with every hypothesis discharged by
computation. -/
theorem c1_optimize_nearest_neighbor_order_witness :
    ∃ p0 rest tl,
      fetchPoints scenarioA_db scenarioA_route = p0 :: rest ∧
      (∀ q ∈ rest, p0.1.position ≤ q.1.position) ∧
      NNChain p0.2 rest tl ∧
      optimize_route scenarioA_db scenarioA_route none =
        Except.ok ((p0 :: tl).enum.map
          (fun iq => ({ iq.2.1 with position := (iq.1 : Int) } : RoutePoint)),
          afterOptimize scenarioA_db scenarioA_route) :=
  c1_optimize_nearest_neighbor_order.1 scenarioA_db scenarioA_route none
    (by decide) (by decide) (by decide)

end Pathie
